import Mathlib

/-!
Verification development for the hero / stream-action core of this engine
(src/src/entities/Hero.cpp, src/src/entities/StreamAction.cpp).

The C++ code is shallowly embedded: machine integers (`int`, `uint32_t`)
become `Int` / `Nat` (timestamps are milliseconds since boot; 32-bit
wrap-around is not reachable in the regimes the statements quantify over,
so no `% 2^32` is inserted), fallible or possibly non-terminating control
flow becomes `Option` with an explicit fuel parameter, and the external
collaborators (map collision oracle, ground classifier, behavior-state
subclasses, whose sources are not part of this repository) are environment
parameters with the conservative-default behavior the engine documents.
-/

set_option maxRecDepth 4000

namespace Solarus

/-- Axis-aligned rectangle as used by `Rectangle` in the source
(top-left corner plus size). -/
structure Rect where
  x : Int
  y : Int
  w : Int
  h : Int
deriving DecidableEq, Repr

/-- `Rectangle::add_xy`: translate a rectangle. -/
def Rect.addXY (r : Rect) (dx dy : Int) : Rect :=
  { r with x := r.x + dx, y := r.y + dy }

/-- The `Ground` enumeration of terrain categories (the closed list used by
`Hero.cpp`). -/
inductive Ground
  | empty
  | traversable
  | wall
  | lowWall
  | wallTopRight
  | wallTopLeft
  | wallBottomLeft
  | wallBottomRight
  | wallTopRightWater
  | wallTopLeftWater
  | wallBottomLeftWater
  | wallBottomRightWater
  | deepWater
  | shallowWater
  | hole
  | ice
  | ladder
  | prickle
  | lava
  | grass
deriving DecidableEq, Repr

/-- The `Layer` enumeration (`LAYER_LOW`, `LAYER_INTERMEDIATE`,
`LAYER_HIGH`). -/
inductive Layer
  | low
  | intermediate
  | high
deriving DecidableEq, Repr

/-- `Layer(layer - 1)` as used by the floor-descent rule. -/
def Layer.pred : Layer → Layer
  | .low => .low
  | .intermediate => .low
  | .high => .intermediate

/-- `MapEntity::direction_to_xy_move`: unit move for one of the eight
directions (0 = east, counterclockwise).  This static table lives in
`MapEntity.cpp`, which is not part of src/; the table is the engine's
standard 8-direction unit-displacement convention (out-of-range directions
abort in the source, here they map to no move). -/
def direction_to_xy_move : Nat → Int × Int
  | 0 => (1, 0)
  | 1 => (1, -1)
  | 2 => (0, -1)
  | 3 => (-1, -1)
  | 4 => (-1, 0)
  | 5 => (-1, 1)
  | 6 => (0, 1)
  | 7 => (1, 1)
  | _ => (0, 0)

/-- `direction_to_xy_move` lifted to the `int` directions the hero code
passes around (values `-1, 0..7`). -/
def dirToXY8 (d : Int) : Int × Int :=
  direction_to_xy_move d.toNat

/-- Largest `j ≤ k` with `j² ≤ n` (0 when none): a structurally
recursive integer square root, kept kernel-reducible on concrete
inputs. -/
def sqrtLinear : Nat → Nat → Nat
  | 0, _ => 0
  | k + 1, n => if (k + 1) * (k + 1) ≤ n then k + 1 else sqrtLinear k n

/-- `⌊√n⌋`, as the `(int)` cast of a positive `double` square root
computes it. -/
def isqrt (n : Nat) : Nat :=
  sqrtLinear n n

/-- `(int) Geometry::get_distance(x1, y1, x2, y2)`: truncated Euclidean
distance between two integer points (the `(int)` cast of the positive
`double` square root is its floor `⌊√·⌋` of the radicand). -/
def intDistance (x1 y1 x2 y2 : Int) : Nat :=
  isqrt (((x2 - x1) ^ 2 + (y2 - y1) ^ 2)).toNat

/-! ## Timed stream action (`StreamAction.cpp`) -/

/-- The entity moved by a stream action, as seen through the `MapEntity`
interface the stream action uses: coordinates, bounding box geometry
(origin offset and size), layer, liveness flags.  `gpDx`/`gpDy` give the
ground-contact point relative to the coordinates (`get_ground_point`;
for the hero this is `(0, -2)`). -/
structure EntityM where
  x : Int
  y : Int
  w : Int
  h : Int
  ox : Int
  oy : Int
  layer : Layer
  gpDx : Int
  gpDy : Int
  beingRemoved : Bool
  enabled : Bool
deriving DecidableEq, Repr

/-- `MapEntity::get_bounding_box` for the moved entity. -/
def EntityM.bb (e : EntityM) : Rect :=
  ⟨e.x - e.ox, e.y - e.oy, e.w, e.h⟩

/-- `MapEntity::get_ground_point` for the moved entity. -/
def EntityM.groundPoint (e : EntityM) : Int × Int :=
  (e.x + e.gpDx, e.y + e.gpDy)

/-- The stream feature a `StreamAction` reads: direction, speed
(an integral number of pixels per second in the `Stream` API),
coordinates, the `allow_movement` flag, liveness, and its overlap
predicate (stream geometry lives outside src/). -/
structure StreamProps where
  direction8 : Nat
  speed : Nat
  x : Int
  y : Int
  allowMovement : Bool
  beingRemoved : Bool
  enabled : Bool
  overlapsPoint : Int → Int → Bool

/-- The mutable/computed fields of `StreamAction`. -/
structure StreamAction where
  active : Bool
  suspended : Bool
  when_suspended : Nat
  dx : Int
  dy : Int
  target_x : Int
  target_y : Int
  next_move_date : Nat
  delay : Nat
deriving DecidableEq, Repr

/-- `StreamAction::StreamAction` (constructor): computes the unit
displacement, the per-step delay and the target point once.
`delay = (uint32_t)(1000 / speed)` truncates; for a diagonal stream
`(uint32_t)(delay * std::sqrt(2))` truncates `delay·√2`, which for every
delay value reachable here (`delay ≤ 1000`) equals
`isqrt (2·delay²) = ⌊delay·√2⌋` (the double rounding error of
`std::sqrt(2)` is below `10⁻¹²` while `delay·√2` is never within `10⁻⁴`
of an integer for `delay ≤ 1000`). -/
def StreamAction.mk' (s : StreamProps) (e : EntityM) (now : Nat) : StreamAction :=
  let d := direction_to_xy_move s.direction8
  let delay0 := 1000 / s.speed
  if s.direction8 % 2 = 0 then
    -- Non-diagonal stream: stop 16 pixels after the stream.
    if d.1 ≠ 0 then
      { active := true, suspended := false, when_suspended := 0,
        dx := d.1, dy := d.2,
        target_x := s.x + (if d.1 > 0 then 16 else -16), target_y := e.y,
        next_move_date := now + delay0, delay := delay0 }
    else
      { active := true, suspended := false, when_suspended := 0,
        dx := d.1, dy := d.2,
        target_x := e.x, target_y := s.y + (if d.2 > 0 then 16 else -16),
        next_move_date := now + delay0, delay := delay0 }
  else
    -- Diagonal movement: stop after exactly 16 pixels; delay inflated by √2.
    let delayD := isqrt (2 * (delay0 * delay0))
    { active := true, suspended := false, when_suspended := 0,
      dx := d.1, dy := d.2,
      target_x := e.x + (if d.1 > 0 then 16 else -16),
      target_y := e.y + (if d.2 > 0 then 16 else -16),
      next_move_date := now + delayD, delay := delayD }

/-- `StreamAction::is_active`. -/
def StreamAction.is_active (sa : StreamAction) : Bool :=
  sa.active

/-- `StreamAction::test_obstacles`: the one-pixel-translated bounding box
of the moved entity is tested against the map collision oracle. -/
def streamTestObstacles (coll : Layer → Rect → Bool) (sa : StreamAction)
    (e : EntityM) : Bool :=
  coll e.layer (e.bb.addXY sa.dx sa.dy)

/-- `StreamAction::has_reached_target`: component-wise test, accounting
for the sign of each step component. -/
def streamReachedTarget (sa : StreamAction) (e : EntityM) : Prop :=
  (sa.dx = 0 ∨ (sa.dx > 0 ∧ e.x ≥ sa.target_x) ∨ (sa.dx < 0 ∧ e.x ≤ sa.target_x)) ∧
  (sa.dy = 0 ∨ (sa.dy > 0 ∧ e.y ≥ sa.target_y) ∨ (sa.dy < 0 ∧ e.y ≤ sa.target_y))

instance (sa : StreamAction) (e : EntityM) : Decidable (streamReachedTarget sa e) := by
  unfold streamReachedTarget; infer_instance

/-- `MapEntity::get_distance(target_x, target_y)` for the moved entity. -/
def EntityM.distTo (e : EntityM) (tx ty : Int) : Nat :=
  intDistance e.x e.y tx ty

/-- One iteration of the body of the update loop of
`StreamAction::update`: advance the scheduled date, test the one-pixel
move; on obstruction do not move (and deactivate a blocking stream) and
report that the loop must stop; otherwise commit the move, notify
(`notify_position_changed` of a generic moved entity is outside src/ and
touches none of the modeled fields) and terminate when the target is
reached. -/
def streamStep (coll : Layer → Rect → Bool) (s : StreamProps)
    (sa : StreamAction) (e : EntityM) : StreamAction × EntityM × Bool :=
  let sa1 := { sa with next_move_date := sa.next_move_date + sa.delay }
  if streamTestObstacles coll sa1 e then
    -- Collision with an obstacle: don't move the entity.
    (if ¬ s.allowMovement then { sa1 with active := false } else sa1, e, true)
  else
    let e1 := { e with x := e.x + sa1.dx, y := e.y + sa1.dy }
    if streamReachedTarget sa1 e1 then
      ({ sa1 with active := false }, e1, false)
    else
      (sa1, e1, false)

/-- The `while (System::now() >= next_move_date && is_active())` loop of
`StreamAction::update`, fuel-indexed (the source loop does not terminate
when `delay = 0`; insufficient fuel yields `none`). -/
def streamLoop (coll : Layer → Rect → Bool) (s : StreamProps) (now : Nat) :
    Nat → StreamAction → EntityM → Option (StreamAction × EntityM)
  | 0, sa, e =>
    if now ≥ sa.next_move_date ∧ sa.active then none else some (sa, e)
  | fuel + 1, sa, e =>
    if now ≥ sa.next_move_date ∧ sa.active then
      match streamStep coll s sa e with
      | (sa1, e1, true) => some (sa1, e1)
      | (sa1, e1, false) => streamLoop coll s now fuel sa1 e1
    else
      some (sa, e)
termination_by structural fuel sa e => fuel

/-- `StreamAction::update`. -/
def streamUpdate (fuel : Nat) (coll : Layer → Rect → Bool) (s : StreamProps)
    (now : Nat) (sa : StreamAction) (e : EntityM) :
    Option (StreamAction × EntityM) :=
  if ¬ sa.is_active then some (sa, e)
  else if s.beingRemoved then some ({ sa with active := false }, e)
  else if ¬ s.enabled then some ({ sa with active := false }, e)
  else if e.beingRemoved then some ({ sa with active := false }, e)
  else if ¬ e.enabled then some ({ sa with active := false }, e)
  else if s.allowMovement ∧ ¬ s.overlapsPoint e.groundPoint.1 e.groundPoint.2 ∧
          e.distTo sa.target_x sa.target_y > 8 then
    -- The entity escaped a non-blocking stream, away from the target.
    some ({ sa with active := false }, e)
  else if sa.suspended then some (sa, e)
  else streamLoop coll s now fuel sa e

/-- `StreamAction::set_suspended`: on suspension record the timestamp; on
resume shift the next-step date by the elapsed pause (only if a
suspension was recorded). -/
def StreamAction.set_suspended (sa : StreamAction) (b : Bool) (now : Nat) :
    StreamAction :=
  let sa1 := { sa with suspended := b }
  if b then
    { sa1 with when_suspended := now }
  else if sa1.when_suspended ≠ 0 then
    { sa1 with next_move_date := sa1.next_move_date + (now - sa1.when_suspended) }
  else sa1

/-! ## Hero: ground/position pipeline (`Hero.cpp`)

The behavior-state subclasses (`hero/FreeState.cpp` etc.) are not part of
src/; a state is therefore embedded as the record of capability queries
the hero code consults, and its callbacks (`start`, `stop`, `update`,
`notify_*`) fall back to the conservative defaults of the base class
(spec §4.2: "unimplemented ones fall back to conservative defaults"),
i.e. they touch none of the fields modeled here.  The retirement
bookkeeping of `Hero::set_state` is modeled separately (`HeroSM` below),
with scripted re-entrant callbacks. -/

/-- A behavior state, as the record of the capability queries `Hero.cpp`
consults. -/
structure StateDesc where
  can_avoid_hole : Bool
  can_avoid_ice : Bool
  can_avoid_deep_water : Bool
  can_avoid_lava : Bool
  can_avoid_prickle : Bool
  can_control_movement : Bool
  are_collisions_ignored : Bool
  can_come_from_bad_ground : Bool
  is_touching_ground : Bool
  is_free : Bool
  wanted_movement_direction8 : Int
deriving DecidableEq, Repr

/-- The fields of `Hero` the ground/position pipeline reads and writes. -/
structure Hero where
  bounding_box : Rect
  layer : Layer
  state : StateDesc
  ground_below : Ground
  ground_dxy : Int × Int
  normal_walking_speed : Int
  walking_speed : Int
  next_ground_date : Nat
  next_ice_date : Nat
  ice_movement_direction8 : Int
  last_solid_ground_coords : Int × Int
  last_solid_ground_layer : Layer
  animation_direction : Int
  life : Int
  suspended : Bool
  when_suspended : Nat
deriving DecidableEq, Repr

/-- `MapEntity::get_x` (the hero's origin is `(8, 13)` inside its 16×16
box, set in the constructor). -/
def Hero.x (h : Hero) : Int := h.bounding_box.x + 8

/-- `MapEntity::get_y`. -/
def Hero.y (h : Hero) : Int := h.bounding_box.y + 13

/-- `Hero::get_ground_point`: 2 px above the logical feet coordinate. -/
def Hero.groundPoint (h : Hero) : Int × Int := (h.x, h.y - 2)

/-- The world collaborators consumed by the pipeline: the ground
classifier and collision oracle of the map, map presence, the movement
delegate, equipment, and the state objects that `new FallingState(...)`
etc. would install (their capability records; the subclasses are outside
src/). -/
structure Env where
  ground : Layer → Int → Int → Ground
  collision : Layer → Rect → Bool
  is_on_map : Bool
  has_movement : Bool
  movement_speed : ℚ
  has_swim_ability : Bool
  falling_state : StateDesc
  plunging_state : StateDesc
  swimming_state : StateDesc
  jumping_state : StateDesc
  back_to_solid_ground_state : StateDesc

/-- `Hero::set_walking_speed`: assigns only when the value changes (the
`notify_walking_speed_changed` callback defaults to a no-op). -/
def set_walking_speed (w : Int) (h : Hero) : Hero :=
  if w ≠ h.walking_speed then { h with walking_speed := w } else h

/-- `Hero::get_distance(last_solid_ground_coords)` style distance from the
hero's coordinates to a point. -/
def Hero.distanceTo (h : Hero) (px py : Int) : Nat :=
  intDistance h.x h.y px py

/-- `Hero::is_ground_visible`: grass or shallow water below and a state
touching the ground. -/
def Hero.groundVisible (h : Hero) : Prop :=
  (h.ground_below = Ground.grass ∨ h.ground_below = Ground.shallowWater) ∧
    h.state.is_touching_ground = true

instance (h : Hero) : Decidable h.groundVisible := by
  unfold Hero.groundVisible; infer_instance

/-- `Hero::update_ice`: recompute the auxiliary ice-slide vector from the
player-requested direction (`wanted`) and the last committed ice-slide
direction. -/
def update_ice (now : Nat) (h : Hero) : Hero :=
  let wanted := h.state.wanted_movement_direction8
  if wanted = -1 then
    -- The player wants to stop.
    if h.ice_movement_direction8 = -1 then
      { h with ground_dxy := (0, 0), next_ice_date := now + 1000 }
    else
      { h with ground_dxy := dirToXY8 h.ice_movement_direction8,
               next_ice_date := now + 300 }
  else
    -- The player wants to move.
    if h.ice_movement_direction8 = -1 then
      -- Resist to the wanted movement.
      { h with ground_dxy := dirToXY8 ((wanted + 4) % 8) }
    else if h.ice_movement_direction8 ≠ wanted then
      { h with ground_dxy := dirToXY8 h.ice_movement_direction8,
               next_ice_date := now + 300 }
    else
      { h with ground_dxy := dirToXY8 wanted, next_ice_date := now + 300 }

/-- `Hero::start_ice`. -/
def start_ice (now : Nat) (h : Hero) : Hero :=
  let w := h.state.wanted_movement_direction8
  { h with next_ground_date := now, next_ice_date := now,
           ice_movement_direction8 := w,
           ground_dxy := if w = -1 then (0, 0) else dirToXY8 w }

/-- `Hero::start_grass` (the ground overlay sprite is not modeled). -/
def start_grass (now : Nat) (h : Hero) : Hero :=
  set_walking_speed (h.normal_walking_speed * 4 / 5)
    { h with next_ground_date := max h.next_ground_date now }

/-- `Hero::start_shallow_water`. -/
def start_shallow_water (now : Nat) (h : Hero) : Hero :=
  set_walking_speed (h.normal_walking_speed * 4 / 5)
    { h with next_ground_date := max h.next_ground_date now }

mutual

/-- `Hero::check_position`: recompute facing entity and detectors (no
modeled field), re-sample the ground below, save the last solid ground
position when the ground is safe, and apply the floor-descent rule on
empty ground.  Fuel-indexed because the ground-change notification can
re-enter `set_state`. -/
def check_position : Nat → Env → Nat → Hero → Option Hero
  | 0, _, _, _ => none
  | fuel + 1, env, now, h =>
    if ¬ env.is_on_map then some h
    else if h.state.are_collisions_ignored then some h
    -- set_facing_entity(NULL) / check_collision_with_detectors(true):
    -- detectors are external collaborators, no modeled field changes.
    else if h.suspended then some h
    else
      (update_ground_below fuel env now h).bind fun h1 =>
        let g := h1.ground_below
        let h2 :=
          if g ≠ Ground.deepWater ∧ g ≠ Ground.hole ∧ g ≠ Ground.lava ∧
             g ≠ Ground.prickle ∧ g ≠ Ground.empty ∧
             h1.state.can_come_from_bad_ground = true ∧
             (h1.x ≠ h1.last_solid_ground_coords.1 ∨
              h1.y ≠ h1.last_solid_ground_coords.2) then
            { h1 with last_solid_ground_coords := (h1.x, h1.y),
                      last_solid_ground_layer := h1.layer }
          else h1
        if g = Ground.empty ∧ h2.state.is_touching_ground = true then
          let tx := h2.bounding_box.x
          let ty := h2.bounding_box.y
          if h2.layer ≠ Layer.low ∧
             env.ground h2.layer tx ty = Ground.empty ∧
             env.ground h2.layer (tx + 15) ty = Ground.empty ∧
             env.ground h2.layer tx (ty + 15) = Ground.empty ∧
             env.ground h2.layer (tx + 15) (ty + 15) = Ground.empty then
            -- set_entity_layer: go to the lower layer (the landing sound
            -- depends on the new ground but changes no modeled field).
            some { h2 with layer := h2.layer.pred }
          else some h2
        else some h2
termination_by structural fuel env now h => fuel

/-- Modelled from the spec: `MapEntity::update_ground_below` is not part
of src/.  Per spec §4.1/§4.3 the ground is re-sampled at the ground point
(2 px above the feet) and a change of ground category triggers the
one-shot `notify_ground_below_changed` reaction. -/
def update_ground_below : Nat → Env → Nat → Hero → Option Hero
  | 0, _, _, _ => none
  | fuel + 1, env, now, h =>
    let g := env.ground h.layer h.groundPoint.1 h.groundPoint.2
    if g = h.ground_below then some h
    else notify_ground_below_changed fuel env now { h with ground_below := g }
termination_by structural fuel env now h => fuel

/-- `Hero::notify_ground_below_changed`: one-shot reaction to a ground
category change (the terrain overlay sprites and sounds are external). -/
def notify_ground_below_changed : Nat → Env → Nat → Hero → Option Hero
  | 0, _, _, _ => none
  | fuel + 1, env, now, h =>
    match h.ground_below with
    | Ground.traversable => some (set_walking_speed h.normal_walking_speed h)
    | Ground.deepWater =>
      if ¬ h.state.can_avoid_deep_water then start_deep_water fuel env now h
      else some h
    | Ground.hole =>
      if ¬ h.state.can_avoid_hole then start_hole fuel env now h else some h
    | Ground.ice =>
      if ¬ h.state.can_avoid_ice then some (start_ice now h) else some h
    | Ground.lava =>
      if ¬ h.state.can_avoid_lava then
        set_state_p fuel env now env.plunging_state h
      else some h
    | Ground.prickle =>
      if ¬ h.state.can_avoid_prickle then start_prickle 500 fuel env now h
      else some h
    | Ground.shallowWater => some (start_shallow_water now h)
    | Ground.grass => some (start_grass now h)
    | Ground.ladder =>
      some (set_walking_speed (h.normal_walking_speed * 3 / 5) h)
    | _ => some h  -- walls (stuck, documented content defect) and empty: no-op
termination_by structural fuel env now h => fuel

/-- `Hero::start_deep_water`: plunge, swim, or jump out (the jump
parameters configure a `JumpingState`, outside src/). -/
def start_deep_water : Nat → Env → Nat → Hero → Option Hero
  | 0, _, _, _ => none
  | fuel + 1, env, now, h =>
    if ¬ h.state.is_touching_ground then
      set_state_p fuel env now env.plunging_state h
    else if env.has_swim_ability then
      set_state_p fuel env now env.swimming_state h
    else
      set_state_p fuel env now env.jumping_state h
termination_by structural fuel env now h => fuel

/-- `Hero::start_hole`: fall immediately without movement control or
without a distinct last-solid-ground memory, otherwise arm the one-pixel
attraction vector towards the memory and slow down to a third. -/
def start_hole : Nat → Env → Nat → Hero → Option Hero
  | 0, _, _, _ => none
  | fuel + 1, env, now, h =>
    if ¬ h.state.can_control_movement then
      set_state_p fuel env now env.falling_state h
    else
      let h := { h with next_ground_date := now }
      if h.last_solid_ground_coords.1 = -1 ∨
         (h.last_solid_ground_coords.1 = h.x ∧
          h.last_solid_ground_coords.2 = h.y) then
        set_state_p fuel env now env.falling_state h
      else
        let gx : Int :=
          if h.x > h.last_solid_ground_coords.1 then 1
          else if h.x < h.last_solid_ground_coords.1 then -1 else 0
        let gy : Int :=
          if h.y > h.last_solid_ground_coords.2 then 1
          else if h.y < h.last_solid_ground_coords.2 then -1 else 0
        some (set_walking_speed (h.normal_walking_speed / 3)
          { h with ground_dxy := (gx, gy) })
termination_by structural fuel env now h => fuel

/-- `Hero::start_prickle`: hurt sound, lose two life points, go back to
solid ground (the delay parameterizes the `BackToSolidGroundState`,
outside src/). -/
def start_prickle : Nat → Nat → Env → Nat → Hero → Option Hero
  | _, 0, _, _, _ => none
  | _, fuel + 1, env, now, h =>
    set_state_p fuel env now env.back_to_solid_ground_state
      { h with life := h.life - 2 }
termination_by structural d fuel env now h => fuel

/-- `Hero::set_state` as seen by the ground pipeline: the capability
record is swapped (the `stop`/`start` callbacks of the states default to
no-ops on the modeled fields; the retirement-queue bookkeeping is modeled
by `HeroSM.setStateSM` below) and `check_position` runs on the new
state. -/
def set_state_p : Nat → Env → Nat → StateDesc → Hero → Option Hero
  | 0, _, _, _, _ => none
  | fuel + 1, env, now, d, h => check_position fuel env now { h with state := d }
termination_by structural fuel env now d h => fuel

end

/-- `Hero::notify_position_changed`: `check_position`, then the state
callback and the scripting notification (both external, no modeled
field). -/
def notify_position_changed (fuel : Nat) (env : Env) (now : Nat) (h : Hero) :
    Option Hero :=
  check_position fuel env now h

/-- `Hero::apply_additional_ground_movement`: try the full ground
displacement, then its horizontal component, then its vertical component,
each validated against the collision oracle before being committed; if
nothing moved and the ground is a hole, fall. -/
def apply_additional_ground_movement (fuel : Nat) (env : Env) (now : Nat)
    (h : Hero) : Option Hero :=
  if h.ground_dxy.1 = 0 ∧ h.ground_dxy.2 = 0 then some h
  else
    let box := h.bounding_box.addXY h.ground_dxy.1 h.ground_dxy.2
    if ¬ env.collision h.layer box then
      notify_position_changed fuel env now { h with bounding_box := box }
    else
      let boxX := h.bounding_box.addXY h.ground_dxy.1 0
      if h.ground_dxy.1 ≠ 0 ∧ ¬ env.collision h.layer boxX then
        notify_position_changed fuel env now { h with bounding_box := boxX }
      else
        let boxY := h.bounding_box.addXY 0 h.ground_dxy.2
        if h.ground_dxy.2 ≠ 0 ∧ ¬ env.collision h.layer boxY then
          notify_position_changed fuel env now { h with bounding_box := boxY }
        else
          if h.ground_below = Ground.hole then
            set_state_p fuel env now env.falling_state
              (set_walking_speed h.normal_walking_speed h)
          else some h

/-- `Hero::update_ground_effects`: gated by the next-ground-evaluation
timestamp; on elapse either schedule the terrain-overlay sound, or apply
the hole attraction (fall when at distance ≥ 8 from the last solid
ground), or apply and re-evaluate the ice slide. -/
def update_ground_effects (fuel : Nat) (env : Env) (now : Nat) (h : Hero) :
    Option Hero :=
  if now ≥ h.next_ground_date then
    if h.groundVisible ∧ env.has_movement = true then
      -- A special ground is displayed under the hero: schedule the next
      -- ground sound from the straight-movement speed.
      some { h with next_ground_date :=
        now + (max 150 (Int.floor ((20000 : ℚ) / env.movement_speed))).toNat }
    else
      if h.ground_below = Ground.hole ∧ ¬ h.state.can_avoid_hole then
        let h1 := { h with next_ground_date := now + 60 }
        if h1.distanceTo h1.last_solid_ground_coords.1
            h1.last_solid_ground_coords.2 ≥ 8 then
          -- Too far from the solid ground: make the hero fall.
          set_state_p fuel env now env.falling_state
            (set_walking_speed h1.normal_walking_speed h1)
        else
          apply_additional_ground_movement fuel env now h1
      else if h.ground_below = Ground.ice then
        (if ¬ h.state.can_avoid_ice then
          apply_additional_ground_movement fuel env now h
         else some h).bind fun h1 =>
          let h2 := { h1 with next_ground_date := now + 20 }
          if now ≥ h2.next_ice_date then
            let h3 := update_ice now h2
            some { h3 with ice_movement_direction8 :=
              h3.state.wanted_movement_direction8 }
          else some h2
      else some h
  else some h

/-- `Hero::set_suspended`: the base class records the suspension
timestamp (`MapEntity::set_suspended` is not part of src/; modelled from
the spec: "each component stores its own when-suspended timestamp"); on
resume the hero shifts its next-ground-evaluation date by the elapsed
pause. -/
def hero_set_suspended (b : Bool) (now : Nat) (h : Hero) : Hero :=
  let h1 := { h with suspended := b,
                     when_suspended := if b then now else h.when_suspended }
  if ¬ b then
    { h1 with next_ground_date := h1.next_ground_date + (now - h1.when_suspended) }
  else h1

/-! ## Hero: state lifecycle and deferred destruction (`Hero::set_state`,
`Hero::update_state`)

State objects are identified by the `Nat` id of their allocation (distinct
C++ objects have distinct ids).  Re-entrant behavior of the `stop` /
`start` callbacks is captured by scripts: `stopScript s next` lists the
`set_state` requests the callback `s->stop(next)` performs, and similarly
for `start`.  Execution is fuel-indexed (a callback loop that never
settles exhausts the fuel and yields `none`, matching the stack overflow
such quest code would produce).  Every execution also returns its trace:
the arguments of all `Hero::set_state` invocations it performed, in
chronological order (the forced re-issue of the sanity-check path
included). -/

/-- The state-lifecycle fields of `Hero`: the active state pointer
(`none` = `NULL`, only before the constructor installs the first state),
the `old_states` retirement queue (which can receive the initial `NULL`,
exactly as `push_back(old_state)` does), and the log of `delete` calls
performed so far. -/
structure HeroSM where
  state : Option Nat
  old_states : List (Option Nat)
  destroyed : List (Option Nat)
deriving DecidableEq, Repr

/-- The re-entrant `set_state` requests performed by the states'
`stop(next)` and `start(previous)` callbacks. -/
structure Scripts where
  stopScript : Nat → Nat → List Nat
  startScript : Nat → Option Nat → List Nat

/-- Sequential execution of the `set_state` requests of one callback
script, parameterised by the interpretation of a single request (the
recursion of `Hero::set_state` re-entering itself through the state
callbacks). -/
def runScriptGen (step : HeroSM → Nat → Option (HeroSM × List Nat)) :
    HeroSM → List Nat → Option (HeroSM × List Nat)
  | h, [] => some (h, [])
  | h, r :: rest =>
    (step h r).bind fun p1 =>
      (runScriptGen step p1.1 rest).map fun p2 => (p2.1, p1.2 ++ p2.2)

/-- `Hero::set_state(new_state)`: stop the previous state; if its `stop`
changed the state again, log a diagnostic and force the originally
requested state by a recursive call; otherwise push the old state on the
retirement queue (never deleting it synchronously), install the new state
and run its `start` (which may change the state again; `check_position`
runs only when it did not, and touches none of the fields modeled
here).  The returned list is the chronological trace of the `set_state`
requests processed (fuel bounds the re-entrancy depth). -/
def setStateSM (σ : Scripts) : Nat → HeroSM → Nat → Option (HeroSM × List Nat)
  | 0, _, _ => none
  | fuel + 1, h, req =>
    match h.state with
    | none =>
      -- No previous state (constructor): nothing to stop.
      let h1 : HeroSM := { h with old_states := h.old_states ++ [none],
                                  state := some req }
      (runScriptGen (fun h r => setStateSM σ fuel h r) h1
          (σ.startScript req none)).map
        fun p => (p.1, req :: p.2)
    | some o =>
      (runScriptGen (fun h r => setStateSM σ fuel h r) h
          (σ.stopScript o req)).bind fun p1 =>
        if p1.1.state = some o then
          let h2 : HeroSM := { p1.1 with
            old_states := p1.1.old_states ++ [some o], state := some req }
          (runScriptGen (fun h r => setStateSM σ fuel h r) h2
              (σ.startScript req (some o))).map
            fun p2 => (p2.1, req :: p1.2 ++ p2.2)
        else
          -- old_state->stop() called set_state() again in the meantime:
          -- diagnostic, then force the state that was supposed to start.
          (setStateSM σ fuel p1.1 req).map
            fun p2 => (p2.1, req :: p1.2 ++ p2.2)
termination_by structural fuel h req => fuel

/-- One callback script run with the `set_state` interpreter at a given
re-entrancy budget. -/
def runScriptSM (σ : Scripts) (fuel : Nat) : HeroSM → List Nat →
    Option (HeroSM × List Nat) :=
  runScriptGen (fun h r => setStateSM σ fuel h r)

/-- The retirement-queue flush of `Hero::update_state`: every state in
`old_states` is deleted (the log records each `delete`) and the queue is
cleared.  The `state->update()` call that precedes it defaults to a no-op
on these fields. -/
def updateStateFlush (h : HeroSM) : HeroSM :=
  { h with old_states := [], destroyed := h.destroyed ++ h.old_states }

/-! ## Concrete sample data (used to instantiate the theorems) -/

/-- A sample moved entity with the hero's geometry, at `(100, 100)`. -/
def entSample : EntityM :=
  { x := 100, y := 100, w := 16, h := 16, ox := 8, oy := 13, layer := Layer.low,
    gpDx := 0, gpDy := -2, beingRemoved := false, enabled := true }

/-- A sample blocking stream (speed 4 px/s, direction east). -/
def streamSample : StreamProps :=
  { direction8 := 0, speed := 4, x := 100, y := 100, allowMovement := false,
    beingRemoved := false, enabled := true, overlapsPoint := fun _ _ => true }

/-- A sample free-like behavior state. -/
def stateSample : StateDesc :=
  { can_avoid_hole := false, can_avoid_ice := false, can_avoid_deep_water := false,
    can_avoid_lava := false, can_avoid_prickle := false,
    can_control_movement := true, are_collisions_ignored := false,
    can_come_from_bad_ground := true, is_touching_ground := true,
    is_free := true, wanted_movement_direction8 := -1 }

/-- A sample hero at `(100, 100)` on the low layer. -/
def heroSample : Hero :=
  { bounding_box := ⟨92, 87, 16, 16⟩, layer := Layer.low, state := stateSample,
    ground_below := Ground.traversable, ground_dxy := (0, 0),
    normal_walking_speed := 88, walking_speed := 88,
    next_ground_date := 400, next_ice_date := 500,
    ice_movement_direction8 := -1,
    last_solid_ground_coords := (50, 50), last_solid_ground_layer := Layer.low,
    animation_direction := 0, life := 12, suspended := false,
    when_suspended := 0 }

/-- The capability record of a sample `FallingState`. -/
def fallingSample : StateDesc :=
  { stateSample with can_control_movement := false,
                     can_come_from_bad_ground := false, is_free := false }

/-- The capability record of a sample `PlungingState`. -/
def plungingSample : StateDesc :=
  { stateSample with is_free := false }

/-- The capability record of a sample `BackToSolidGroundState`. -/
def backToSolidGroundSample : StateDesc :=
  { stateSample with are_collisions_ignored := true, is_free := false }

/-- A sample environment: open traversable map, no obstacles. -/
def envSample : Env :=
  { ground := fun _ _ _ => Ground.traversable, collision := fun _ _ => false,
    is_on_map := true, has_movement := false, movement_speed := 88,
    has_swim_ability := false,
    falling_state := fallingSample,
    plunging_state := plungingSample,
    swimming_state := plungingSample,
    jumping_state := plungingSample,
    back_to_solid_ground_state := backToSolidGroundSample }

/-- The non-diagonal per-step delay as the specification's timing-law
sentence computes it, `round(1000/S)` — a second definition following the
spec's words, for comparison with the truncating computation of the
source constructor. -/
def specStraightStreamDelay (speed : Nat) : Int :=
  round ((1000 : ℚ) / speed)

/-- The last-solid-ground update condition exactly as the specification
sentence states it (for comparison with the source's condition in
`Hero::check_position`): collisions not ignored, not suspended, safe
ground, and changed coordinates. -/
def specSolidGroundUpdate (h : Hero) : Prop :=
  h.state.are_collisions_ignored = false ∧ h.suspended = false ∧
  h.ground_below ≠ Ground.deepWater ∧ h.ground_below ≠ Ground.hole ∧
  h.ground_below ≠ Ground.lava ∧ h.ground_below ≠ Ground.prickle ∧
  h.ground_below ≠ Ground.empty ∧
  (h.x ≠ h.last_solid_ground_coords.1 ∨ h.y ≠ h.last_solid_ground_coords.2)

instance (h : Hero) : Decidable (specSolidGroundUpdate h) := by
  unfold specSolidGroundUpdate; infer_instance

/-! # Theorems -/

/-- C10: inactivity of a stream action is permanent: an inactive action is
left exactly as it is by `update` (entity untouched), `update` never
re-activates an action, `set_suspended` does not touch the active flag,
and the constructor is the only operation that sets it to `true`. -/
theorem streamAction_inactivity_permanent
    (fuel : Nat) (coll : Layer → Rect → Bool) (s : StreamProps) (now : Nat)
    (sa : StreamAction) (e : EntityM) :
    (sa.is_active = false → streamUpdate fuel coll s now sa e = some (sa, e))
  ∧ (∀ sa' e', streamUpdate fuel coll s now sa e = some (sa', e') →
      sa'.is_active = true → sa.is_active = true)
  ∧ (∀ b t, (sa.set_suspended b t).is_active = sa.is_active)
  ∧ (StreamAction.mk' s e now).is_active = true := by
  have key : sa.is_active = false → streamUpdate fuel coll s now sa e = some (sa, e) := by
    intro hin
    have hin' : sa.active = false := hin
    simp [streamUpdate, StreamAction.is_active, hin']
  refine ⟨key, ?_, ?_, ?_⟩
  · intro sa' e' hrun hact
    rcases Bool.eq_false_or_eq_true sa.is_active with hin | hin
    · exact hin
    · rw [key hin] at hrun
      cases hrun
      rw [hin] at hact
      exact absurd hact (by simp)
  · intro b t
    unfold StreamAction.set_suspended StreamAction.is_active
    cases b <;> simp <;> split <;> rfl
  · unfold StreamAction.mk' StreamAction.is_active
    simp only []
    split <;> (try split) <;> rfl

/-- Witness for C10 at a concrete inactive action. -/
theorem streamAction_inactivity_permanent_witness :
    ({ StreamAction.mk' streamSample entSample 0 with
        active := false } : StreamAction).is_active = false ∧
    streamUpdate 5 (fun _ _ => false) streamSample 1000
      { StreamAction.mk' streamSample entSample 0 with active := false }
      entSample =
      some ({ StreamAction.mk' streamSample entSample 0 with active := false },
        entSample) :=
  ⟨by decide,
   (streamAction_inactivity_permanent 5 (fun _ _ => false) streamSample 1000
      { StreamAction.mk' streamSample entSample 0 with active := false }
      entSample).1 (by decide)⟩

/-- The square of `sqrtLinear k n` never exceeds `n`. -/
theorem sqrtLinear_sq_le (k n : Nat) : sqrtLinear k n * sqrtLinear k n ≤ n := by
  induction k with
  | zero => simp [sqrtLinear]
  | succ k ih =>
    unfold sqrtLinear
    split
    · assumption
    · exact ih

/-- `sqrtLinear k n` dominates every `j ≤ k` with `j² ≤ n`. -/
theorem le_sqrtLinear : ∀ (k n j : Nat), j ≤ k → j * j ≤ n →
    j ≤ sqrtLinear k n := by
  intro k
  induction k with
  | zero =>
    intro n j hj _
    omega
  | succ k ih =>
    intro n j hj hsq
    unfold sqrtLinear
    split
    · omega
    · rename_i hfail
      have hne : j ≠ k + 1 := fun he => hfail (he ▸ hsq)
      exact ih n j (by omega) hsq

/-- `isqrt` is a lower square root. -/
theorem isqrt_le (n : Nat) : isqrt n * isqrt n ≤ n :=
  sqrtLinear_sq_le n n

/-- `isqrt` is the floor square root: `n` lies below the next square. -/
theorem lt_isqrt_succ (n : Nat) : n < (isqrt n + 1) * (isqrt n + 1) := by
  by_contra hle
  push_neg at hle
  have h1 : isqrt n + 1 ≤ n :=
    le_trans (Nat.le_mul_of_pos_left _ (by omega)) hle
  have h2 : isqrt n + 1 ≤ sqrtLinear n n :=
    le_sqrtLinear n n (isqrt n + 1) h1 hle
  have h3 : sqrtLinear n n = isqrt n := rfl
  omega

/-- C4 (amended): the per-step delay of a stream action is computed once
at construction and never changes afterward; it is the truncation (not
the rounding) of `1000/S` for a non-diagonal stream — characterized by
`delay·S ≤ 1000 < (delay+1)·S` — and for a diagonal stream the truncation
of `⌊1000/S⌋·√2` — characterized by `delay² ≤ 2·⌊1000/S⌋² < (delay+1)²`. -/
theorem streamAction_delay_law (s : StreamProps) (e : EntityM) (now : Nat)
    (hS : 1 ≤ s.speed) :
    (s.direction8 % 2 = 0 →
      (StreamAction.mk' s e now).delay * s.speed ≤ 1000 ∧
      1000 < ((StreamAction.mk' s e now).delay + 1) * s.speed)
  ∧ (s.direction8 % 2 = 1 →
      (StreamAction.mk' s e now).delay * (StreamAction.mk' s e now).delay ≤
        2 * (1000 / s.speed * (1000 / s.speed)) ∧
      2 * (1000 / s.speed * (1000 / s.speed)) <
        ((StreamAction.mk' s e now).delay + 1) *
          ((StreamAction.mk' s e now).delay + 1))
  ∧ (∀ fuel coll now2 sa2 e2 sa' e2',
      streamUpdate fuel coll s now2 sa2 e2 = some (sa', e2') →
      sa'.delay = sa2.delay)
  ∧ (∀ b t, ((StreamAction.mk' s e now).set_suspended b t).delay
      = (StreamAction.mk' s e now).delay) := by
  have hdiv : ∀ d : Nat, d = 1000 / s.speed →
      d * s.speed ≤ 1000 ∧ 1000 < (d + 1) * s.speed := by
    intro d hd
    subst hd
    constructor
    · exact Nat.div_mul_le_self 1000 s.speed
    · have h1 := Nat.div_add_mod 1000 s.speed
      have h2 : 1000 % s.speed < s.speed := Nat.mod_lt 1000 (by omega)
      have h3 : (1000 / s.speed + 1) * s.speed
          = 1000 / s.speed * s.speed + s.speed := by ring
      have h4 : s.speed * (1000 / s.speed) = 1000 / s.speed * s.speed :=
        Nat.mul_comm _ _
      omega
  refine ⟨?_, ?_, ?_, ?_⟩
  · intro hpar
    have hdelay : (StreamAction.mk' s e now).delay = 1000 / s.speed := by
      unfold StreamAction.mk'
      rw [if_pos hpar]
      split <;> rfl
    rw [hdelay]
    exact hdiv _ rfl
  · intro hpar
    have hne : ¬ s.direction8 % 2 = 0 := by omega
    have hdelay : (StreamAction.mk' s e now).delay
        = isqrt (2 * (1000 / s.speed * (1000 / s.speed))) := by
      unfold StreamAction.mk'
      simp only [if_neg hne]
    rw [hdelay]
    exact ⟨isqrt_le _, lt_isqrt_succ _⟩
  · intro fuel coll now2 sa2 e2 sa' e2' hrun
    have hstep : ∀ sa0 e0 sa1 e1 b, streamStep coll s sa0 e0 = (sa1, e1, b) →
        sa1.delay = sa0.delay := by
      intro sa0 e0 sa1 e1 b hs
      simp only [streamStep] at hs
      split_ifs at hs <;> (cases hs; rfl)
    have loopDelay : ∀ f sa0 e0 sa1 e1,
        streamLoop coll s now2 f sa0 e0 = some (sa1, e1) →
        sa1.delay = sa0.delay := by
      intro f
      induction f with
      | zero =>
        intro sa0 e0 sa1 e1 hl
        rw [streamLoop] at hl
        split_ifs at hl
        all_goals (cases hl <;> rfl)
      | succ f ih =>
        intro sa0 e0 sa1 e1 hl
        rw [streamLoop] at hl
        split_ifs at hl
        · rcases hs : streamStep coll s sa0 e0 with ⟨saM, eM, b⟩
          rw [hs] at hl
          cases b
          · simp only [] at hl
            rw [ih saM eM sa1 e1 hl, hstep sa0 e0 saM eM false hs]
          · simp only [] at hl
            cases hl
            exact hstep _ _ _ _ true hs
        · cases hl; rfl
    unfold streamUpdate at hrun
    by_cases h1 : sa2.is_active
    · rw [if_neg (by simp [h1])] at hrun
      split_ifs at hrun <;> first
        | (cases hrun; rfl)
        | exact loopDelay fuel sa2 e2 sa' e2' hrun
    · rw [if_pos (by simp [h1])] at hrun
      cases hrun; rfl
  · intro b t
    unfold StreamAction.set_suspended
    cases b
    · simp only [Bool.false_eq_true, if_false]
      split <;> rfl
    · rfl

/-- Witness for C4 at a concrete diagonal stream of speed 3:
`⌊1000/3⌋ = 333` and the diagonal delay is `⌊333·√2⌋ = 470`. -/
theorem streamAction_delay_law_witness :
    1 ≤ (3 : Nat) ∧
    (StreamAction.mk' { streamSample with direction8 := 1, speed := 3 }
        entSample 0).delay *
      (StreamAction.mk' { streamSample with direction8 := 1, speed := 3 }
        entSample 0).delay ≤ 2 * (1000 / 3 * (1000 / 3)) :=
  ⟨by decide,
   ((streamAction_delay_law
      { streamSample with direction8 := 1, speed := 3 } entSample 0
      (by decide)).2.1 (by decide)).1⟩

/-- Counterexample for C4 as stated: for a non-diagonal stream of speed 6
the source computes `(uint32_t)(1000/6) = 166` ms while the claimed
`round(1000/6)` is 167 ms. -/
theorem streamAction_delay_counterexample :
    (StreamAction.mk' { streamSample with speed := 6 } entSample 0).delay = 166
  ∧ specStraightStreamDelay 6 = 167
  ∧ (166 : Int) ≠ 167 := by
  refine ⟨by decide, ?_, by decide⟩
  unfold specStraightStreamDelay
  rw [round_eq]
  norm_num

/-- C7 (amended): suspending at `t0` and resuming at `t1` shifts the
hero's pending ground-effect deadline by exactly `t1 − t0`, and the
stream action's next-step deadline by exactly `t1 − t0` (given a real
prior suspension, `0 < t0`); the hero's ice-evaluation deadline is NOT
shifted on resume. -/
theorem suspend_resume_shift (h : Hero) (sa : StreamAction) (t0 t1 : Nat)
    (hle : t0 ≤ t1) :
    (hero_set_suspended false t1 (hero_set_suspended true t0 h)).next_ground_date
      = h.next_ground_date + (t1 - t0)
  ∧ (hero_set_suspended false t1 (hero_set_suspended true t0 h)).next_ice_date
      = h.next_ice_date
  ∧ (0 < t0 →
      ((sa.set_suspended true t0).set_suspended false t1).next_move_date
        = sa.next_move_date + (t1 - t0)) := by
  refine ⟨?_, ?_, ?_⟩
  · simp [hero_set_suspended]
  · simp [hero_set_suspended]
  · intro ht0
    have h1 : sa.set_suspended true t0
        = { sa with suspended := true, when_suspended := t0 } := by
      simp [StreamAction.set_suspended]
    rw [h1]
    have hne : t0 ≠ 0 := by omega
    simp [StreamAction.set_suspended, hne]

/-- Witness for C7 at concrete suspension times 100 → 250. -/
theorem suspend_resume_shift_witness :
    (100 : Nat) ≤ 250 ∧
    (hero_set_suspended false 250 (hero_set_suspended true 100 heroSample)).next_ground_date
      = heroSample.next_ground_date + (250 - 100) :=
  ⟨by decide,
   (suspend_resume_shift heroSample (StreamAction.mk' streamSample entSample 0)
      100 250 (by decide)).1⟩

/-- Counterexample for C7 as stated: the hero's ice-evaluation deadline
(`next_ice_date = 500`) is left at 500 by a suspend(100)/resume(250)
pair, not shifted to `500 + 150` as the claim requires for every
pending-event timestamp. -/
theorem suspend_resume_ice_counterexample :
    (hero_set_suspended false 250 (hero_set_suspended true 100 heroSample)).next_ice_date
      = 500
  ∧ heroSample.next_ice_date = 500
  ∧ (500 : Nat) ≠ 500 + (250 - 100) := by
  exact ⟨by decide, by decide, by decide⟩

set_option maxHeartbeats 2000000 in
/-- C6: inside the stream step loop, an obstructed one-pixel move leaves
the entity in place, stops the stepping for this update, and deactivates
the action exactly when the stream does not allow free movement; an
unobstructed step commits the one-pixel move and deactivates the action
exactly when the target is then reached component-wise.  Concretely, a
blocking east stream of speed 4 aimed 16 px ahead but obstructed after
8 px ends inactive with the entity at the 8 px mark. -/
theorem streamStep_obstruction_law
    (coll : Layer → Rect → Bool) (s : StreamProps) (sa : StreamAction)
    (e : EntityM) (hact : sa.active = true) :
    (streamTestObstacles coll { sa with
        next_move_date := sa.next_move_date + sa.delay } e = true →
      (streamStep coll s sa e).2.1 = e ∧
      (streamStep coll s sa e).2.2 = true ∧
      (s.allowMovement = false → (streamStep coll s sa e).1.active = false) ∧
      (s.allowMovement = true → (streamStep coll s sa e).1.active = true))
  ∧ (streamTestObstacles coll { sa with
        next_move_date := sa.next_move_date + sa.delay } e = false →
      (streamStep coll s sa e).2.1 = { e with x := e.x + sa.dx, y := e.y + sa.dy } ∧
      (streamStep coll s sa e).2.2 = false ∧
      ((streamStep coll s sa e).1.active = false ↔
        streamReachedTarget sa { e with x := e.x + sa.dx, y := e.y + sa.dy }))
  ∧ (streamUpdate 12 (fun _ r => decide (r.x ≥ 101)) streamSample 2250
      (StreamAction.mk' streamSample entSample 0) entSample =
      some ({ StreamAction.mk' streamSample entSample 0 with
                active := false, next_move_date := 2500 },
            { entSample with x := 108 })) := by
  refine ⟨?_, ?_, by decide⟩
  · intro hobs
    simp only [streamStep, hobs, if_true]
    cases hallow : s.allowMovement <;> simp [hallow, hact]
  · intro hobs
    simp only [streamStep, hobs, Bool.false_eq_true, if_false]
    by_cases hr : streamReachedTarget
        { sa with next_move_date := sa.next_move_date + sa.delay }
        { e with x := e.x + sa.dx, y := e.y + sa.dy }
    · rw [if_pos hr]
      exact ⟨rfl, rfl, iff_of_true rfl hr⟩
    · rw [if_neg hr]
      refine ⟨rfl, rfl, iff_of_false ?_ hr⟩
      simp [hact]

/-- Witness for C6: the obstructed-step branch at a concrete blocked
move. -/
theorem streamStep_obstruction_law_witness :
    (StreamAction.mk' streamSample entSample 0).active = true ∧
    (streamStep (fun _ _ => true) streamSample
      (StreamAction.mk' streamSample entSample 0) entSample).2.1 = entSample :=
  ⟨by decide,
   ((streamStep_obstruction_law (fun _ _ => true) streamSample
      (StreamAction.mk' streamSample entSample 0) entSample (by decide)).1
      (by decide)).1⟩

/-- `Hero::set_walking_speed` only touches the walking speed. -/
theorem sws_state (w : Int) (h : Hero) :
    (set_walking_speed w h).state = h.state := by
  unfold set_walking_speed
  split <;> rfl

/-- `Hero::set_walking_speed` keeps the cached ground. -/
theorem sws_ground_below (w : Int) (h : Hero) :
    (set_walking_speed w h).ground_below = h.ground_below := by
  unfold set_walking_speed
  split <;> rfl

/-- `Hero::set_walking_speed` keeps the ground-effect deadline. -/
theorem sws_next_ground_date (w : Int) (h : Hero) :
    (set_walking_speed w h).next_ground_date = h.next_ground_date := by
  unfold set_walking_speed
  split <;> rfl

/-- `Hero::set_walking_speed` keeps the layer. -/
theorem sws_layer (w : Int) (h : Hero) :
    (set_walking_speed w h).layer = h.layer := by
  unfold set_walking_speed
  split <;> rfl

/-- `Hero::set_walking_speed` keeps the suspension flag. -/
theorem sws_suspended (w : Int) (h : Hero) :
    (set_walking_speed w h).suspended = h.suspended := by
  unfold set_walking_speed
  split <;> rfl

/-- `Hero::set_walking_speed` leaves the bounding box alone. -/
theorem sws_bb (w : Int) (h : Hero) :
    (set_walking_speed w h).bounding_box = h.bounding_box := by
  unfold set_walking_speed
  split <;> rfl

/-- `Hero::set_walking_speed` results in the requested walking speed. -/
theorem sws_speed (w : Int) (h : Hero) :
    (set_walking_speed w h).walking_speed = w := by
  unfold set_walking_speed
  split
  · rfl
  · omega

set_option maxHeartbeats 1000000 in
/-- The position-check cascade never moves the hero: every function of
the `check_position` / `set_state` / ground-notification group preserves
the bounding box (only `apply_additional_ground_movement` and the
movement delegates commit moves). -/
theorem heroCascade_bb_preserved : ∀ fuel : Nat,
    (∀ env now h h', check_position fuel env now h = some h' →
      h'.bounding_box = h.bounding_box)
  ∧ (∀ env now h h', update_ground_below fuel env now h = some h' →
      h'.bounding_box = h.bounding_box)
  ∧ (∀ env now h h', notify_ground_below_changed fuel env now h = some h' →
      h'.bounding_box = h.bounding_box)
  ∧ (∀ env now h h', start_deep_water fuel env now h = some h' →
      h'.bounding_box = h.bounding_box)
  ∧ (∀ env now h h', start_hole fuel env now h = some h' →
      h'.bounding_box = h.bounding_box)
  ∧ (∀ d env now h h', start_prickle d fuel env now h = some h' →
      h'.bounding_box = h.bounding_box)
  ∧ (∀ env now d h h', set_state_p fuel env now d h = some h' →
      h'.bounding_box = h.bounding_box) := by
  intro fuel
  induction fuel with
  | zero =>
    refine ⟨?_, ?_, ?_, ?_, ?_, ?_, ?_⟩ <;> intros <;>
      simp_all [check_position, update_ground_below,
        notify_ground_below_changed, start_deep_water, start_hole,
        start_prickle, set_state_p]
  | succ f ih =>
    obtain ⟨ihcp, ihugb, ihngc, ihsdw, ihsh, ihsp, ihssp⟩ := ih
    have hsws : ∀ w h, (set_walking_speed w h).bounding_box = h.bounding_box := by
      intro w h
      unfold set_walking_speed
      split <;> rfl
    have hcp : ∀ env now h h', check_position (f + 1) env now h = some h' →
        h'.bounding_box = h.bounding_box := by
      intro env now h h' hr
      simp only [check_position] at hr
      rcases hu : update_ground_below f env now h with _ | h1 <;> rw [hu] at hr
      · split_ifs at hr <;> (cases hr <;> rfl)
      · have hb1 := ihugb env now h h1 hu
        simp only [Option.some_bind] at hr
        split_ifs at hr <;> (cases hr <;> first | rfl | exact hb1)
    refine ⟨hcp, ?_, ?_, ?_, ?_, ?_, ?_⟩
    · -- update_ground_below
      intro env now h h' hr
      simp only [update_ground_below] at hr
      split_ifs at hr <;>
        first
          | (cases hr <;> rfl)
          | exact (ihngc _ _ _ _ hr).trans rfl
    · -- notify_ground_below_changed
      intro env now h h' hr
      simp only [notify_ground_below_changed] at hr
      rcases hg : h.ground_below <;> rw [hg] at hr
      case traversable => cases hr; exact hsws _ _
      case deepWater =>
        split_ifs at hr <;>
          first
            | (cases hr <;> rfl)
            | exact (ihsdw _ _ _ _ hr).trans rfl
      case hole =>
        split_ifs at hr <;>
          first
            | (cases hr <;> rfl)
            | exact (ihsh _ _ _ _ hr).trans rfl
      case ice =>
        split_ifs at hr <;> (cases hr <;> simp [start_ice])
      case lava =>
        split_ifs at hr <;>
          first
            | (cases hr <;> rfl)
            | exact (ihssp _ _ _ _ _ hr).trans rfl
      case prickle =>
        split_ifs at hr <;>
          first
            | (cases hr <;> rfl)
            | exact (ihsp _ _ _ _ _ hr).trans rfl
      case shallowWater =>
        cases hr
        unfold start_shallow_water
        exact hsws _ _
      case grass =>
        cases hr
        unfold start_grass
        exact hsws _ _
      case ladder => cases hr; exact hsws _ _
      all_goals (cases hr <;> rfl)
    · -- start_deep_water
      intro env now h h' hr
      simp only [start_deep_water] at hr
      split_ifs at hr <;> exact (ihssp _ _ _ _ _ hr).trans rfl
    · -- start_hole
      intro env now h h' hr
      simp only [start_hole] at hr
      split_ifs at hr <;>
        first
          | exact (ihssp _ _ _ _ _ hr).trans rfl
          | (cases hr <;> simp [hsws])
    · -- start_prickle
      intro d env now h h' hr
      simp only [start_prickle] at hr
      exact (ihssp _ _ _ _ _ hr).trans rfl
    · -- set_state_p
      intro env now d h h' hr
      simp only [set_state_p] at hr
      exact (ihcp _ _ _ _ hr).trans rfl

/-- C2: every committed ground-effect displacement and every committed
stream step is validated first: if `apply_additional_ground_movement`
changed the bounding box, the collision oracle returned `false` on the
committed box (queried on the hero's layer) right before the commit; and
if a stream step moved the entity, the oracle returned `false` on the
one-pixel-translated bounding box it committed. -/
theorem committed_moves_collision_free :
    (∀ fuel env now h h',
      apply_additional_ground_movement fuel env now h = some h' →
      h'.bounding_box ≠ h.bounding_box →
      env.collision h.layer h'.bounding_box = false)
  ∧ (∀ (coll : Layer → Rect → Bool) s sa e,
      (streamStep coll s sa e).2.1 ≠ e →
      (streamStep coll s sa e).2.1.bb = e.bb.addXY sa.dx sa.dy ∧
      coll e.layer (e.bb.addXY sa.dx sa.dy) = false) := by
  have npcBB : ∀ fuel env now h h',
      notify_position_changed fuel env now h = some h' →
      h'.bounding_box = h.bounding_box := by
    intro fuel env now h h' hr
    exact (heroCascade_bb_preserved fuel).1 env now h h' hr
  constructor
  · intro fuel env now h h' hr hne
    simp only [apply_additional_ground_movement] at hr
    by_cases h0 : h.ground_dxy.1 = 0 ∧ h.ground_dxy.2 = 0
    · rw [if_pos h0] at hr
      cases hr
      exact absurd rfl hne
    · rw [if_neg h0] at hr
      by_cases hc1 : env.collision h.layer
          (h.bounding_box.addXY h.ground_dxy.1 h.ground_dxy.2) = true
      · rw [if_neg (not_not_intro hc1)] at hr
        by_cases hc2 : h.ground_dxy.1 ≠ 0 ∧
            ¬ env.collision h.layer (h.bounding_box.addXY h.ground_dxy.1 0) = true
        · rw [if_pos hc2] at hr
          have hb := npcBB fuel env now _ h' hr
          rw [hb]
          simpa using hc2.2
        · rw [if_neg hc2] at hr
          by_cases hc3 : h.ground_dxy.2 ≠ 0 ∧
              ¬ env.collision h.layer (h.bounding_box.addXY 0 h.ground_dxy.2) = true
          · rw [if_pos hc3] at hr
            have hb := npcBB fuel env now _ h' hr
            rw [hb]
            simpa using hc3.2
          · rw [if_neg hc3] at hr
            by_cases hh : h.ground_below = Ground.hole
            · rw [if_pos hh] at hr
              have hb := (heroCascade_bb_preserved fuel).2.2.2.2.2.2
                  env now env.falling_state _ h' hr
              rw [sws_bb] at hb
              exact absurd hb hne
            · rw [if_neg hh] at hr
              cases hr
              exact absurd rfl hne
      · rw [if_pos hc1] at hr
        have hb := npcBB fuel env now _ h' hr
        rw [hb]
        simpa using hc1
  · intro coll s sa e hne
    by_cases hobs : streamTestObstacles coll
        { sa with next_move_date := sa.next_move_date + sa.delay } e = true
    · exfalso
      apply hne
      simp only [streamStep, hobs, if_true]
    · constructor
      · simp only [streamStep, hobs, Bool.false_eq_true, if_false]
        split <;> (simp [EntityM.bb, Rect.addXY]; constructor <;> ring)
      · have : streamTestObstacles coll
            { sa with next_move_date := sa.next_move_date + sa.delay } e
            = false := by
          simpa using hobs
        simpa [streamTestObstacles] using this

/-- Witness for C2: a concrete committed ground displacement whose
resulting box passes the collision query. -/
theorem committed_moves_collision_free_witness :
    apply_additional_ground_movement 5 envSample 0
        { heroSample with ground_dxy := (1, 0) } =
      some { heroSample with
             ground_dxy := (1, 0),
             bounding_box := ⟨93, 87, 16, 16⟩,
             last_solid_ground_coords := (101, 100) } ∧
    envSample.collision Layer.low (⟨93, 87, 16, 16⟩ : Rect) = false :=
  ⟨by decide,
   (committed_moves_collision_free).1 5 envSample 0
     { heroSample with ground_dxy := (1, 0) }
     { heroSample with
       ground_dxy := (1, 0),
       bounding_box := ⟨93, 87, 16, 16⟩,
       last_solid_ground_coords := (101, 100) }
     (by decide) (by decide)⟩

/-- C8: the ground-effect pipeline is a pure no-op while the
next-ground-evaluation gate has not elapsed, so a second run within the
same gated interval (after a run that re-armed the gate to a future
deadline) produces no additional state change. -/
theorem groundEffects_gated_idempotent (fuel : Nat) (env : Env) (now : Nat)
    (h : Hero) :
    (now < h.next_ground_date → update_ground_effects fuel env now h = some h)
  ∧ (∀ fuel2 env2 now2 h',
      update_ground_effects fuel env now h = some h' →
      now2 < h'.next_ground_date →
      update_ground_effects fuel2 env2 now2 h' = some h') := by
  have gate : ∀ fuel3 env3 now3 (h3 : Hero), now3 < h3.next_ground_date →
      update_ground_effects fuel3 env3 now3 h3 = some h3 := by
    intro fuel3 env3 now3 h3 hlt
    unfold update_ground_effects
    rw [if_neg (by omega)]
  exact ⟨gate fuel env now h, fun fuel2 env2 now2 h' _ hlt => gate fuel2 env2 now2 h' hlt⟩

/-- Witness for C8 at a concrete gated hero (`now = 100`, gate 400). -/
theorem groundEffects_gated_idempotent_witness :
    (100 : Nat) < heroSample.next_ground_date ∧
    update_ground_effects 5 envSample 100 heroSample = some heroSample :=
  ⟨by decide,
   (groundEffects_gated_idempotent 5 envSample 100 heroSample).1 (by decide)⟩

/-- C3: the five cases of the ice-slide re-evaluation, exactly as the
claim tabulates them (with `wanted` the player-requested 8-direction and
`ice_dir` the last committed ice direction), and the from-rest cadence:
with a constant requested direction `D` from rest, the first
re-evaluation slides opposite to `D` (leaving the re-evaluation date
alone), and once the pipeline has committed `ice_dir = D` the next
re-evaluation slides along `D` on a 300 ms cadence. -/
theorem update_ice_law (now now2 : Nat) (h : Hero) :
    (h.state.wanted_movement_direction8 = -1 →
      h.ice_movement_direction8 = -1 →
      update_ice now h = { h with ground_dxy := (0, 0),
                                  next_ice_date := now + 1000 })
  ∧ (h.state.wanted_movement_direction8 = -1 →
      h.ice_movement_direction8 ≠ -1 →
      update_ice now h = { h with
        ground_dxy := dirToXY8 h.ice_movement_direction8,
        next_ice_date := now + 300 })
  ∧ (h.state.wanted_movement_direction8 ≠ -1 →
      h.ice_movement_direction8 = -1 →
      update_ice now h = { h with
        ground_dxy := dirToXY8 ((h.state.wanted_movement_direction8 + 4) % 8) })
  ∧ (h.state.wanted_movement_direction8 ≠ -1 →
      h.ice_movement_direction8 ≠ -1 →
      h.ice_movement_direction8 ≠ h.state.wanted_movement_direction8 →
      update_ice now h = { h with
        ground_dxy := dirToXY8 h.ice_movement_direction8,
        next_ice_date := now + 300 })
  ∧ (h.state.wanted_movement_direction8 ≠ -1 →
      h.ice_movement_direction8 = h.state.wanted_movement_direction8 →
      update_ice now h = { h with
        ground_dxy := dirToXY8 h.state.wanted_movement_direction8,
        next_ice_date := now + 300 })
  ∧ (∀ D, h.state.wanted_movement_direction8 = D → D ≠ -1 →
      h.ice_movement_direction8 = -1 →
      (update_ice now h).ground_dxy = dirToXY8 ((D + 4) % 8) ∧
      (update_ice now h).next_ice_date = h.next_ice_date ∧
      (update_ice now2 { h with ice_movement_direction8 := D }).ground_dxy
        = dirToXY8 D ∧
      (update_ice now2 { h with ice_movement_direction8 := D }).next_ice_date
        = now2 + 300) := by
  refine ⟨?_, ?_, ?_, ?_, ?_, ?_⟩
  · intro hw hi
    simp [update_ice, hw, hi]
  · intro hw hi
    simp [update_ice, hw, hi]
  · intro hw hi
    simp [update_ice, hw, hi]
  · intro hw hi hne
    simp [update_ice, hw, hi, hne]
  · intro hw heq
    rcases eq_or_ne h.ice_movement_direction8 (-1) with hi | hi
    · exact absurd (hi ▸ heq.symm) hw
    · simp [update_ice, hw, hi, heq]
  · intro D hD hDne hi
    have h1 : update_ice now h = { h with
        ground_dxy := dirToXY8 ((D + 4) % 8) } := by
      simp [update_ice, hD, hDne, hi]
    have h2 : update_ice now2 { h with ice_movement_direction8 := D }
        = { h with ice_movement_direction8 := D,
                   ground_dxy := dirToXY8 D, next_ice_date := now2 + 300 } := by
      simp [update_ice, hD, hDne]
    rw [h1, h2]
    exact ⟨rfl, rfl, rfl, rfl⟩

/-- Witness for C3: from rest (no committed ice direction) with the
player pushing east (direction 0), the first re-evaluation slides west
(direction 4). -/
theorem update_ice_law_witness :
    ({ heroSample with
       state := { stateSample with wanted_movement_direction8 := 0 } } : Hero).state.wanted_movement_direction8 = 0 ∧
    (update_ice 1000 { heroSample with
       state := { stateSample with wanted_movement_direction8 := 0 } }).ground_dxy
      = dirToXY8 ((0 + 4) % 8) :=
  ⟨by decide,
   ((update_ice_law 1000 2000 { heroSample with
       state := { stateSample with wanted_movement_direction8 := 0 } }).2.2.2.2.2
     0 (by decide) (by decide) (by decide)).1⟩

/-- When the freshly sampled ground equals the cached ground (no one-shot
ground-change reaction fires), `check_position` only updates the
last-solid-ground memory (under the source's exact condition) and
possibly the layer (floor descent); every other field is untouched. -/
theorem check_position_pure (fuel : Nat) (env : Env) (now : Nat) (h h' : Hero)
    (hc : env.ground h.layer h.groundPoint.1 h.groundPoint.2 = h.ground_below)
    (hrun : check_position fuel env now h = some h') :
    (∃ lay mem memlay, h' = { h with layer := lay,
                                     last_solid_ground_coords := mem,
                                     last_solid_ground_layer := memlay })
  ∧ (h'.last_solid_ground_coords, h'.last_solid_ground_layer) =
      (if env.is_on_map = true ∧ h.state.are_collisions_ignored = false ∧
          h.suspended = false ∧
          h.ground_below ≠ Ground.deepWater ∧ h.ground_below ≠ Ground.hole ∧
          h.ground_below ≠ Ground.lava ∧ h.ground_below ≠ Ground.prickle ∧
          h.ground_below ≠ Ground.empty ∧
          h.state.can_come_from_bad_ground = true ∧
          (h.x ≠ h.last_solid_ground_coords.1 ∨
           h.y ≠ h.last_solid_ground_coords.2)
       then ((h.x, h.y), h.layer)
       else (h.last_solid_ground_coords, h.last_solid_ground_layer)) := by
  cases fuel with
  | zero => simp [check_position] at hrun
  | succ f =>
    simp only [check_position] at hrun
    by_cases hmap : env.is_on_map = true
    case neg =>
      rw [if_pos hmap] at hrun
      cases hrun
      refine ⟨⟨_, _, _, rfl⟩, ?_⟩
      rw [if_neg (fun hcl => hmap hcl.1)]
    case pos =>
      rw [if_neg (not_not_intro hmap)] at hrun
      by_cases hign : h.state.are_collisions_ignored = true
      · rw [if_pos hign] at hrun
        cases hrun
        refine ⟨⟨_, _, _, rfl⟩, ?_⟩
        rw [if_neg (fun hcl => by rw [hign] at hcl; exact absurd hcl.2.1 (by simp))]
      · rw [if_neg hign] at hrun
        by_cases hsus : h.suspended = true
        · rw [if_pos hsus] at hrun
          cases hrun
          refine ⟨⟨_, _, _, rfl⟩, ?_⟩
          rw [if_neg (fun hcl => by rw [hsus] at hcl; exact absurd hcl.2.2.1 (by simp))]
        · rw [if_neg hsus] at hrun
          cases f with
          | zero => simp [update_ground_below] at hrun
          | succ f2 =>
            have hugb : update_ground_below (f2 + 1) env now h = some h := by
              simp [update_ground_below, hc]
            rw [hugb, Option.some_bind] at hrun
            have hign' : h.state.are_collisions_ignored = false := by
              simpa using hign
            have hsus' : h.suspended = false := by simpa using hsus
            by_cases hmem : h.ground_below ≠ Ground.deepWater ∧
                h.ground_below ≠ Ground.hole ∧ h.ground_below ≠ Ground.lava ∧
                h.ground_below ≠ Ground.prickle ∧ h.ground_below ≠ Ground.empty ∧
                h.state.can_come_from_bad_ground = true ∧
                (h.x ≠ h.last_solid_ground_coords.1 ∨
                 h.y ≠ h.last_solid_ground_coords.2)
            · rw [if_pos hmem] at hrun
              refine ⟨?_, ?_⟩
              · split_ifs at hrun <;> cases hrun <;> exact ⟨_, _, _, rfl⟩
              · have hm : h'.last_solid_ground_coords = (h.x, h.y) ∧
                    h'.last_solid_ground_layer = h.layer := by
                  split_ifs at hrun <;> cases hrun <;> exact ⟨rfl, rfl⟩
                rw [hm.1, hm.2]
                rw [if_pos ⟨hmap, hign', hsus', hmem.1, hmem.2.1, hmem.2.2.1,
                  hmem.2.2.2.1, hmem.2.2.2.2.1, hmem.2.2.2.2.2.1,
                  hmem.2.2.2.2.2.2⟩]
            · rw [if_neg hmem] at hrun
              refine ⟨?_, ?_⟩
              · split_ifs at hrun <;> cases hrun <;> exact ⟨_, _, _, rfl⟩
              · have hm : h'.last_solid_ground_coords
                      = h.last_solid_ground_coords ∧
                    h'.last_solid_ground_layer = h.last_solid_ground_layer := by
                  split_ifs at hrun <;> cases hrun <;> exact ⟨rfl, rfl⟩
                rw [hm.1, hm.2]
                rw [if_neg ?_]
                rintro ⟨-, -, -, c1, c2, c3, c4, c5, c6, c7⟩
                exact hmem ⟨c1, c2, c3, c4, c5, c6, c7⟩

/-- On a uniform ground region matching the cached ground, the
collision-aware ground displacement helper never changes the
next-ground-evaluation deadline. -/
theorem agm_gate (fuel : Nat) (env : Env) (now : Nat) (h h' : Hero)
    (Hg : ∀ l x y, env.ground l x y = h.ground_below)
    (hrun : apply_additional_ground_movement fuel env now h = some h') :
    h'.next_ground_date = h.next_ground_date := by
  have npcGate : ∀ (hb : Hero), hb.ground_below = h.ground_below →
      ∀ h2, notify_position_changed fuel env now hb = some h2 →
      h2.next_ground_date = hb.next_ground_date := by
    intro hb hgb h2 hr2
    have hcb : env.ground hb.layer hb.groundPoint.1 hb.groundPoint.2
        = hb.ground_below := by rw [Hg, hgb]
    obtain ⟨lay, mem, memlay, rfl⟩ :=
      (check_position_pure fuel env now hb h2 hcb
        (by simpa [notify_position_changed] using hr2)).1
    rfl
  simp only [apply_additional_ground_movement] at hrun
  by_cases h0 : h.ground_dxy.1 = 0 ∧ h.ground_dxy.2 = 0
  · rw [if_pos h0] at hrun
    cases hrun
    rfl
  · rw [if_neg h0] at hrun
    by_cases hc1 : env.collision h.layer
        (h.bounding_box.addXY h.ground_dxy.1 h.ground_dxy.2) = true
    · rw [if_neg (not_not_intro hc1)] at hrun
      by_cases hc2 : h.ground_dxy.1 ≠ 0 ∧
          ¬ env.collision h.layer (h.bounding_box.addXY h.ground_dxy.1 0) = true
      · rw [if_pos hc2] at hrun
        exact (npcGate { h with
          bounding_box := h.bounding_box.addXY h.ground_dxy.1 0 } rfl _ hrun).trans rfl
      · rw [if_neg hc2] at hrun
        by_cases hc3 : h.ground_dxy.2 ≠ 0 ∧
            ¬ env.collision h.layer (h.bounding_box.addXY 0 h.ground_dxy.2) = true
        · rw [if_pos hc3] at hrun
          exact (npcGate { h with
            bounding_box := h.bounding_box.addXY 0 h.ground_dxy.2 } rfl _ hrun).trans rfl
        · rw [if_neg hc3] at hrun
          by_cases hh : h.ground_below = Ground.hole
          · rw [if_pos hh] at hrun
            cases fuel with
            | zero => simp [set_state_p] at hrun
            | succ f =>
              simp only [set_state_p] at hrun
              have hcb : env.ground
                  ({ set_walking_speed h.normal_walking_speed h with
                     state := env.falling_state } : Hero).layer
                  ({ set_walking_speed h.normal_walking_speed h with
                     state := env.falling_state } : Hero).groundPoint.1
                  ({ set_walking_speed h.normal_walking_speed h with
                     state := env.falling_state } : Hero).groundPoint.2
                  = ({ set_walking_speed h.normal_walking_speed h with
                       state := env.falling_state } : Hero).ground_below := by
                rw [Hg]
                exact (sws_ground_below _ _).symm
              obtain ⟨lay, mem, memlay, rfl⟩ :=
                (check_position_pure f env now _ h' hcb hrun).1
              exact sws_next_ground_date _ _
          · rw [if_neg hh] at hrun
            cases hrun
            rfl
    · rw [if_pos hc1] at hrun
      exact (npcGate { h with
        bounding_box := h.bounding_box.addXY h.ground_dxy.1 h.ground_dxy.2 } rfl _ hrun).trans rfl

/-- C5 (amended): while the ground below is a hole and the state does not
avoid holes, an elapsed ground-effect gate re-arms the gate 60 ms later
and either (distance to the last solid ground AT LEAST 8 px — the source
threshold is inclusive) restores the nominal walking speed, forces the
Falling state and commits no pull step, or (distance < 8 px) applies the
stored ground displacement helper, which on a free path moves the hero by
exactly the stored one-pixel vector. -/
theorem holeGroundEffect_law (fuel : Nat) (env : Env) (now : Nat)
    (h h' : Hero)
    (Hg : ∀ l x y, env.ground l x y = Ground.hole)
    (hgb : h.ground_below = Ground.hole)
    (havoid : h.state.can_avoid_hole = false)
    (hnow : now ≥ h.next_ground_date)
    (hrun : update_ground_effects fuel env now h = some h') :
    h'.next_ground_date = now + 60
  ∧ (h.distanceTo h.last_solid_ground_coords.1 h.last_solid_ground_coords.2
        ≥ 8 →
      h'.state = env.falling_state ∧
      h'.walking_speed = h.normal_walking_speed ∧
      h'.bounding_box = h.bounding_box)
  ∧ (h.distanceTo h.last_solid_ground_coords.1 h.last_solid_ground_coords.2
        < 8 →
      apply_additional_ground_movement fuel env now
        { h with next_ground_date := now + 60 } = some h')
  ∧ (h.distanceTo h.last_solid_ground_coords.1 h.last_solid_ground_coords.2
        < 8 →
      h.ground_dxy ≠ (0, 0) →
      env.collision h.layer
        (h.bounding_box.addXY h.ground_dxy.1 h.ground_dxy.2) = false →
      h'.bounding_box
        = h.bounding_box.addXY h.ground_dxy.1 h.ground_dxy.2) := by
  have hnv : ¬ (h.groundVisible ∧ env.has_movement = true) := by
    rintro ⟨⟨hg, -⟩, -⟩
    rcases hg with hg | hg <;> rw [hgb] at hg <;> cases hg
  have hrun' : update_ground_effects fuel env now h =
      (if h.distanceTo h.last_solid_ground_coords.1
          h.last_solid_ground_coords.2 ≥ 8 then
        set_state_p fuel env now env.falling_state
          (set_walking_speed h.normal_walking_speed
            { h with next_ground_date := now + 60 })
      else
        apply_additional_ground_movement fuel env now
          { h with next_ground_date := now + 60 }) := by
    unfold update_ground_effects
    rw [if_pos hnow, if_neg hnv, if_pos ⟨hgb, by simp [havoid]⟩]
    rfl
  rw [hrun'] at hrun
  by_cases hdist : h.distanceTo h.last_solid_ground_coords.1
      h.last_solid_ground_coords.2 ≥ 8
  · rw [if_pos hdist] at hrun
    -- fall branch
    rcases fuel with _ | f
    · simp [set_state_p] at hrun
    · simp only [set_state_p] at hrun
      have hcb : env.ground
          ({ set_walking_speed h.normal_walking_speed
               { h with next_ground_date := now + 60 } with
             state := env.falling_state } : Hero).layer
          ({ set_walking_speed h.normal_walking_speed
               { h with next_ground_date := now + 60 } with
             state := env.falling_state } : Hero).groundPoint.1
          ({ set_walking_speed h.normal_walking_speed
               { h with next_ground_date := now + 60 } with
             state := env.falling_state } : Hero).groundPoint.2
          = ({ set_walking_speed h.normal_walking_speed
                 { h with next_ground_date := now + 60 } with
               state := env.falling_state } : Hero).ground_below := by
        rw [Hg]
        rw [show ({ set_walking_speed h.normal_walking_speed
            { h with next_ground_date := now + 60 } with
            state := env.falling_state } : Hero).ground_below
          = h.ground_below from sws_ground_below _ _, hgb]
      obtain ⟨lay, mem, memlay, rfl⟩ :=
        (check_position_pure f env now _ h' hcb hrun).1
      refine ⟨sws_next_ground_date _ _, fun _ => ⟨rfl, ?_, sws_bb _ _⟩,
        fun hlt => absurd hdist (by omega), fun hlt => absurd hdist (by omega)⟩
      exact sws_speed _ _
  · rw [if_neg hdist] at hrun
    -- pull branch
    have hgate : h'.next_ground_date = now + 60 := by
      have := agm_gate fuel env now { h with next_ground_date := now + 60 } h'
        (by intro l x y; rw [Hg]; rw [show ({ h with
          next_ground_date := now + 60 } : Hero).ground_below = h.ground_below
          from rfl, hgb]) hrun
      simpa using this
    refine ⟨hgate, fun hge => absurd hge hdist, fun _ => hrun, fun _ hdxy hfree => ?_⟩
    simp only [apply_additional_ground_movement] at hrun
    rw [if_neg (by
      rintro ⟨u, v⟩
      exact hdxy (Prod.ext u v))] at hrun
    rw [if_pos (by simp [hfree])] at hrun
    have hb := (heroCascade_bb_preserved fuel).1 env now _ h'
      (by simpa [notify_position_changed] using hrun)
    rw [hb]

/-- Witness for C5 and the claim's 10 px scenario: at distance 10 from
the last solid ground the hero falls immediately, with no pull step. -/
theorem holeGroundEffect_law_witness :
    ({ heroSample with ground_below := Ground.hole,
                       last_solid_ground_coords := (94, 92),
                       next_ground_date := 0 } : Hero).distanceTo 94 92 = 10 ∧
    ∃ h', update_ground_effects 6 { envSample with
                                    ground := fun _ _ _ => Ground.hole } 100
        { heroSample with ground_below := Ground.hole,
                          last_solid_ground_coords := (94, 92),
                          next_ground_date := 0 }
        = some h' ∧
      h'.state = fallingSample ∧
      h'.bounding_box = heroSample.bounding_box := by
  refine ⟨by decide, ?_⟩
  rcases hrun : update_ground_effects 6 { envSample with
                                          ground := fun _ _ _ => Ground.hole } 100
      { heroSample with ground_below := Ground.hole,
                        last_solid_ground_coords := (94, 92),
                        next_ground_date := 0 }
    with _ | h'
  · exact absurd hrun (by decide)
  · have hlaw := (holeGroundEffect_law 6 _ 100 _ h'
      (fun _ _ _ => rfl) rfl rfl (by decide) hrun).2.1 (by decide)
    exact ⟨h', rfl, hlaw.1, hlaw.2.2⟩

/-- Counterexample for C5 as stated: at distance EXACTLY 8 px (not
"farther than 8 px") the source already forces the fall — the gradual
pull the claim requires does not happen. -/
theorem holeGroundEffect_counterexample :
    ({ heroSample with ground_below := Ground.hole,
                       last_solid_ground_coords := (92, 100),
                       next_ground_date := 0 } : Hero).distanceTo 92 100 = 8 ∧
    ¬ ((8 : Nat) > 8) ∧
    update_ground_effects 6
      { envSample with ground := fun _ _ _ => Ground.hole } 100
      { heroSample with ground_below := Ground.hole,
                        last_solid_ground_coords := (92, 100),
                        next_ground_date := 0 }
      = some { heroSample with ground_below := Ground.hole,
                               last_solid_ground_coords := (92, 100),
                               next_ground_date := 160,
                               state := fallingSample } := by
  exact ⟨by decide, by decide, by decide⟩

/-- C9 (amended): after a position change with no simultaneous
ground-category change, `check_position` updates the last-solid-ground
coordinates and layer to the current position if and only if the hero is
on the map, the active state does not ignore collisions, the hero is not
suspended, the ground below is none of deep water, hole, lava, prickle
or void, the active state can recover from bad ground
(`can_come_from_bad_ground`, absent from the claim), and the coordinates
differ from the stored ones; otherwise the memory is unchanged. -/
theorem solidGroundMemory_update_law (fuel : Nat) (env : Env) (now : Nat)
    (h h' : Hero)
    (hc : env.ground h.layer h.groundPoint.1 h.groundPoint.2 = h.ground_below)
    (hrun : check_position fuel env now h = some h') :
    (h'.last_solid_ground_coords, h'.last_solid_ground_layer) =
      (if env.is_on_map = true ∧ h.state.are_collisions_ignored = false ∧
          h.suspended = false ∧
          h.ground_below ≠ Ground.deepWater ∧ h.ground_below ≠ Ground.hole ∧
          h.ground_below ≠ Ground.lava ∧ h.ground_below ≠ Ground.prickle ∧
          h.ground_below ≠ Ground.empty ∧
          h.state.can_come_from_bad_ground = true ∧
          (h.x ≠ h.last_solid_ground_coords.1 ∨
           h.y ≠ h.last_solid_ground_coords.2)
       then ((h.x, h.y), h.layer)
       else (h.last_solid_ground_coords, h.last_solid_ground_layer)) :=
  (check_position_pure fuel env now h h' hc hrun).2

/-- Witness for C9: on safe ground with changed coordinates the memory is
updated to the current position. -/
theorem solidGroundMemory_update_law_witness :
    envSample.ground heroSample.layer heroSample.groundPoint.1
        heroSample.groundPoint.2 = heroSample.ground_below ∧
    (({ heroSample with
        last_solid_ground_coords := (100, 100) } : Hero).last_solid_ground_coords,
     ({ heroSample with
        last_solid_ground_coords := (100, 100) } : Hero).last_solid_ground_layer)
      = ((heroSample.x, heroSample.y), heroSample.layer) :=
  ⟨by decide, by
    have := solidGroundMemory_update_law 5 envSample 0 heroSample
      { heroSample with last_solid_ground_coords := (100, 100) }
      (by decide) (by decide)
    rw [this, if_pos (by decide)]⟩

/-- Counterexample for C9 as stated: a state that cannot recover from bad
ground (`can_come_from_bad_ground = false`) satisfies every condition the
claim lists (collisions not ignored, not suspended, safe ground, changed
coordinates), yet the source leaves the memory untouched. -/
theorem solidGroundMemory_counterexample :
    specSolidGroundUpdate { heroSample with
      state := { stateSample with can_come_from_bad_ground := false } } ∧
    (check_position 5 envSample 0 { heroSample with
        state := { stateSample with can_come_from_bad_ground := false } }).map
      (fun hh => hh.last_solid_ground_coords) = some (50, 50) ∧
    ((50 : Int), (50 : Int)) ≠
      (({ heroSample with state := { stateSample with
          can_come_from_bad_ground := false } } : Hero).x,
       ({ heroSample with state := { stateSample with
          can_come_from_bad_ground := false } } : Hero).y) := by
  exact ⟨by decide, by decide, by decide⟩

/-- Basic invariants of every completed `set_state` execution and of
every completed callback script: the active pointer ends non-null, no
state object is deleted, the retirement queue only grows, a replaced
active state ends up in the queue, and the trace starts with the
requested state. -/
theorem setStateSM_basic : ∀ fuel : Nat,
    (∀ (σ : Scripts) (h : HeroSM) (req : Nat) (h' : HeroSM) (tr : List Nat),
      setStateSM σ fuel h req = some (h', tr) →
      h'.state.isSome = true ∧
      h'.destroyed = h.destroyed ∧
      (∃ t, h'.old_states = h.old_states ++ t) ∧
      tr.head? = some req ∧
      (∀ o, h.state = some o → h'.state ≠ some o → some o ∈ h'.old_states))
  ∧ (∀ (σ : Scripts) (l : List Nat) (h : HeroSM) (h' : HeroSM) (tr : List Nat),
      runScriptSM σ fuel h l = some (h', tr) →
      h'.destroyed = h.destroyed ∧
      (∃ t, h'.old_states = h.old_states ++ t) ∧
      (h.state.isSome = true → h'.state.isSome = true) ∧
      (∀ o, h.state = some o → h'.state ≠ some o → some o ∈ h'.old_states) ∧
      (l = [] → h' = h ∧ tr = [])) := by
  intro fuel
  induction fuel with
  | zero =>
    constructor
    · intro σ h req h' tr hr
      simp [setStateSM] at hr
    · intro σ l h h' tr hr
      cases l with
      | nil =>
        simp only [runScriptSM, runScriptGen] at hr
        cases hr
        exact ⟨rfl, ⟨[], by simp⟩, id, fun o ho hne => absurd ho hne,
          fun _ => ⟨rfl, rfl⟩⟩
      | cons r rest =>
        simp [runScriptSM, runScriptGen, setStateSM] at hr
  | succ f ih =>
    obtain ⟨ihP, ihQ⟩ := ih
    have Pstep : ∀ (σ : Scripts) (h : HeroSM) (req : Nat) (h' : HeroSM)
        (tr : List Nat),
        setStateSM σ (f + 1) h req = some (h', tr) →
        h'.state.isSome = true ∧
        h'.destroyed = h.destroyed ∧
        (∃ t, h'.old_states = h.old_states ++ t) ∧
        tr.head? = some req ∧
        (∀ o, h.state = some o → h'.state ≠ some o →
          some o ∈ h'.old_states) := by
      intro σ h req h' tr hr
      obtain ⟨hs0, olds0, des0⟩ := h
      cases hs0 with
      | none =>
        simp only [setStateSM] at hr
        cases hrs : runScriptGen (fun h r => setStateSM σ f h r)
            ⟨some req, olds0 ++ [none], des0⟩ (σ.startScript req none) with
        | none => rw [hrs] at hr; cases hr
        | some p =>
          rw [hrs] at hr
          simp only [Option.map_some'] at hr
          cases hr
          have hrs' : runScriptSM σ f ⟨some req, olds0 ++ [none], des0⟩
              (σ.startScript req none) = some p := hrs
          obtain ⟨qd, ⟨t, qo⟩, qs, qmem, -⟩ := ihQ σ _ _ _ _ hrs'
          refine ⟨qs rfl, qd, ⟨[none] ++ t, by simp [qo]⟩, rfl, ?_⟩
          intro o ho _
          cases ho
      | some o =>
        simp only [setStateSM] at hr
        cases hrs1 : runScriptGen (fun h r => setStateSM σ f h r)
            ⟨some o, olds0, des0⟩ (σ.stopScript o req) with
        | none => rw [hrs1] at hr; cases hr
        | some p1 =>
          rw [hrs1] at hr
          simp only [Option.some_bind] at hr
          have hrs1' : runScriptSM σ f ⟨some o, olds0, des0⟩
              (σ.stopScript o req) = some p1 := hrs1
          obtain ⟨qd1, ⟨t1, qo1⟩, qs1, qmem1, -⟩ := ihQ σ _ _ _ _ hrs1'
          by_cases heq : p1.1.state = some o
          · rw [if_pos heq] at hr
            cases hrs2 : runScriptGen (fun h r => setStateSM σ f h r)
                ⟨some req, p1.1.old_states ++ [some o], p1.1.destroyed⟩
                (σ.startScript req (some o)) with
            | none => rw [hrs2] at hr; cases hr
            | some p2 =>
              rw [hrs2] at hr
              simp only [Option.map_some'] at hr
              cases hr
              have hrs2' : runScriptSM σ f
                  ⟨some req, p1.1.old_states ++ [some o], p1.1.destroyed⟩
                  (σ.startScript req (some o)) = some p2 := hrs2
              obtain ⟨qd2, ⟨t2, qo2⟩, qs2, qmem2, -⟩ := ihQ σ _ _ _ _ hrs2'
              refine ⟨qs2 rfl, by simp at qd2 qd1 ⊢; rw [qd2, qd1],
                ⟨t1 ++ [some o] ++ t2, by
                  simp at qo2 qo1
                  rw [qo2, qo1]
                  simp [List.append_assoc]⟩, rfl, ?_⟩
              intro o2 ho2 _
              cases ho2
              have hin : some o ∈ p1.1.old_states ++ [some o] := by simp
              have hsub : p1.1.old_states ++ [some o] ⊆ p2.1.old_states := by
                simp at qo2
                rw [qo2]
                exact List.append_subset.mpr
                  ⟨List.subset_append_left _ _, by simp⟩
              exact hsub hin
          · rw [if_neg heq] at hr
            cases hrec : setStateSM σ f p1.1 req with
            | none => rw [hrec] at hr; cases hr
            | some p2 =>
              rw [hrec] at hr
              simp only [Option.map_some'] at hr
              cases hr
              obtain ⟨ps, pd, ⟨t2, po⟩, -, -⟩ := ihP σ _ _ _ _ hrec
              refine ⟨ps, by simp at qd1; rw [pd, qd1],
                ⟨t1 ++ t2, by
                  simp at qo1
                  rw [po, qo1, List.append_assoc]⟩, rfl, ?_⟩
              intro o2 ho2 _
              cases ho2
              have hmem1 : some o ∈ p1.1.old_states := qmem1 o rfl heq
              rw [po]
              exact List.mem_append_left _ hmem1
    have Qstep : ∀ (σ : Scripts) (l : List Nat) (h : HeroSM) (h' : HeroSM)
        (tr : List Nat),
        runScriptSM σ (f + 1) h l = some (h', tr) →
        h'.destroyed = h.destroyed ∧
        (∃ t, h'.old_states = h.old_states ++ t) ∧
        (h.state.isSome = true → h'.state.isSome = true) ∧
        (∀ o, h.state = some o → h'.state ≠ some o →
          some o ∈ h'.old_states) ∧
        (l = [] → h' = h ∧ tr = []) := by
      intro σ l
      induction l with
      | nil =>
        intro h h' tr hr
        simp only [runScriptSM, runScriptGen] at hr
        cases hr
        exact ⟨rfl, ⟨[], by simp⟩, id, fun o ho hne => absurd ho hne,
          fun _ => ⟨rfl, rfl⟩⟩
      | cons r rest ihl =>
        intro h h' tr hr
        simp only [runScriptSM, runScriptGen] at hr
        cases h1run : setStateSM σ (f + 1) h r with
        | none => rw [h1run] at hr; cases hr
        | some p1 =>
          rw [h1run] at hr
          simp only [Option.some_bind] at hr
          cases h2run : runScriptGen (fun h r => setStateSM σ (f + 1) h r)
              p1.1 rest with
          | none => rw [h2run] at hr; cases hr
          | some p2 =>
            rw [h2run] at hr
            simp only [Option.map_some'] at hr
            cases hr
            obtain ⟨ps1, pd1, ⟨t1, po1⟩, -, pmem1⟩ := Pstep σ _ _ _ _ h1run
            have h2run' : runScriptSM σ (f + 1) p1.1 rest = some p2 := h2run
            obtain ⟨qd, ⟨t2, qo⟩, qs, qmem, -⟩ := ihl _ _ _ h2run'
            refine ⟨qd.trans pd1,
              ⟨t1 ++ t2, by rw [qo, po1, List.append_assoc]⟩,
              fun _ => qs ps1, ?_, by intro hnil; cases hnil⟩
            intro o ho hne
            by_cases hmid : p1.1.state = some o
            · exact qmem o hmid hne
            · have := pmem1 o ho hmid
              rw [qo]
              exact List.mem_append_left _ this
    exact ⟨Pstep, Qstep⟩

/-- Last-requested-wins: when a completed `set_state` execution has a
duplicate-free trace that avoids the initially active state, the final
active state is the state named last in the trace (for a script run, the
trace may also be empty, leaving the state untouched). -/
theorem setStateSM_last : ∀ fuel : Nat,
    (∀ (σ : Scripts) (h : HeroSM) (req : Nat) (h' : HeroSM) (tr : List Nat),
      setStateSM σ fuel h req = some (h', tr) →
      tr.Nodup → (∀ o, h.state = some o → o ∉ tr) →
      ∃ x, tr.getLast? = some x ∧ h'.state = some x)
  ∧ (∀ (σ : Scripts) (l : List Nat) (h : HeroSM) (h' : HeroSM) (tr : List Nat),
      runScriptSM σ fuel h l = some (h', tr) →
      tr.Nodup → (∀ o, h.state = some o → o ∉ tr) →
      (tr = [] ∧ h'.state = h.state) ∨
      (∃ x, tr.getLast? = some x ∧ h'.state = some x)) := by
  intro fuel
  induction fuel with
  | zero =>
    constructor
    · intro σ h req h' tr hr
      simp [setStateSM] at hr
    · intro σ l h h' tr hr hnd hnotin
      cases l with
      | nil =>
        simp only [runScriptSM, runScriptGen] at hr
        cases hr
        exact Or.inl ⟨rfl, rfl⟩
      | cons r rest =>
        simp [runScriptSM, runScriptGen, setStateSM] at hr
  | succ f ih =>
    obtain ⟨ihP, ihQ⟩ := ih
    have Pstep : ∀ (σ : Scripts) (h : HeroSM) (req : Nat) (h' : HeroSM)
        (tr : List Nat),
        setStateSM σ (f + 1) h req = some (h', tr) →
        tr.Nodup → (∀ o, h.state = some o → o ∉ tr) →
        ∃ x, tr.getLast? = some x ∧ h'.state = some x := by
      intro σ h req h' tr hr hnd hnotin
      obtain ⟨hs0, olds0, des0⟩ := h
      cases hs0 with
      | none =>
        simp only [setStateSM] at hr
        cases hrs : runScriptGen (fun h r => setStateSM σ f h r)
            ⟨some req, olds0 ++ [none], des0⟩ (σ.startScript req none) with
        | none => rw [hrs] at hr; cases hr
        | some p =>
          rw [hrs] at hr
          simp only [Option.map_some'] at hr
          cases hr
          have hrs' : runScriptSM σ f ⟨some req, olds0 ++ [none], des0⟩
              (σ.startScript req none) = some p := hrs
          rw [List.nodup_cons] at hnd
          have hq := ihQ σ _ _ _ _ hrs' hnd.2 (by
            intro o ho
            cases ho
            exact hnd.1)
          rcases hq with ⟨htrnil, hstate⟩ | ⟨x, hlast, hstate⟩
          · rw [htrnil]
            exact ⟨req, rfl, hstate.trans rfl⟩
          · have hne : p.2 ≠ [] := by
              intro hh
              rw [hh] at hlast
              cases hlast
            refine ⟨x, ?_, hstate⟩
            rw [show req :: p.2 = [req] ++ p.2 from rfl,
              List.getLast?_append_of_ne_nil _ hne]
            exact hlast
      | some o =>
        simp only [setStateSM] at hr
        cases hrs1 : runScriptGen (fun h r => setStateSM σ f h r)
            ⟨some o, olds0, des0⟩ (σ.stopScript o req) with
        | none => rw [hrs1] at hr; cases hr
        | some p1 =>
          rw [hrs1] at hr
          simp only [Option.some_bind] at hr
          have hrs1' : runScriptSM σ f ⟨some o, olds0, des0⟩
              (σ.stopScript o req) = some p1 := hrs1
          by_cases heq : p1.1.state = some o
          · rw [if_pos heq] at hr
            cases hrs2 : runScriptGen (fun h r => setStateSM σ f h r)
                ⟨some req, p1.1.old_states ++ [some o], p1.1.destroyed⟩
                (σ.startScript req (some o)) with
            | none => rw [hrs2] at hr; cases hr
            | some p2 =>
              rw [hrs2] at hr
              simp only [Option.map_some'] at hr
              cases hr
              have hrs2' : runScriptSM σ f
                  ⟨some req, p1.1.old_states ++ [some o], p1.1.destroyed⟩
                  (σ.startScript req (some o)) = some p2 := hrs2
              rw [List.cons_append, List.nodup_cons] at hnd
              have ho_nin : o ∉ req :: (p1.2 ++ p2.2) := hnotin o rfl
              have hq1 := ihQ σ _ _ _ _ hrs1'
                (hnd.2.of_append_left) (by
                  intro o' ho'
                  cases ho'
                  intro hm
                  exact ho_nin (List.mem_cons_of_mem _
                    (List.mem_append_left _ hm)))
              have htra_nil : p1.2 = [] := by
                rcases hq1 with ⟨hh, -⟩ | ⟨x, hlast, hstate⟩
                · exact hh
                · have hxo : some x = some o := hstate.symm.trans heq
                  cases hxo
                  exact absurd (List.mem_cons_of_mem _
                      (List.mem_append_left _
                        (List.mem_of_getLast?_eq_some hlast))) ho_nin
              rw [htra_nil] at hnd
              simp only [List.nil_append] at hnd
              have hq2 := ihQ σ _ _ _ _ hrs2' hnd.2 (by
                intro o' ho'
                cases ho'
                exact hnd.1)
              rw [htra_nil]
              simp only [List.cons_append, List.nil_append]
              rcases hq2 with ⟨htrnil, hstate⟩ | ⟨x, hlast, hstate⟩
              · rw [htrnil]
                exact ⟨req, rfl, hstate.trans rfl⟩
              · have hne : p2.2 ≠ [] := by
                  intro hh
                  rw [hh] at hlast
                  cases hlast
                refine ⟨x, ?_, hstate⟩
                rw [show req :: p2.2 = [req] ++ p2.2 from rfl,
                  List.getLast?_append_of_ne_nil _ hne]
                exact hlast
          · rw [if_neg heq] at hr
            cases hrec : setStateSM σ f p1.1 req with
            | none => rw [hrec] at hr; cases hr
            | some p2 =>
              rw [hrec] at hr
              simp only [Option.map_some'] at hr
              cases hr
              obtain ⟨-, -, -, hhead, -⟩ :=
                (setStateSM_basic f).1 σ p1.1 req p2.1 p2.2 hrec
              have hreqmem : req ∈ p2.2 := List.mem_of_mem_head? hhead
              rw [List.cons_append, List.nodup_cons] at hnd
              exact absurd (List.mem_append_right _ hreqmem) hnd.1
    have Qstep : ∀ (σ : Scripts) (l : List Nat) (h : HeroSM) (h' : HeroSM)
        (tr : List Nat),
        runScriptSM σ (f + 1) h l = some (h', tr) →
        tr.Nodup → (∀ o, h.state = some o → o ∉ tr) →
        (tr = [] ∧ h'.state = h.state) ∨
        (∃ x, tr.getLast? = some x ∧ h'.state = some x) := by
      intro σ l
      induction l with
      | nil =>
        intro h h' tr hr hnd hnotin
        simp only [runScriptSM, runScriptGen] at hr
        cases hr
        exact Or.inl ⟨rfl, rfl⟩
      | cons r rest ihl =>
        intro h h' tr hr hnd hnotin
        simp only [runScriptSM, runScriptGen] at hr
        cases h1run : setStateSM σ (f + 1) h r with
        | none => rw [h1run] at hr; cases hr
        | some p1 =>
          rw [h1run] at hr
          simp only [Option.some_bind] at hr
          cases h2run : runScriptGen (fun h r => setStateSM σ (f + 1) h r)
              p1.1 rest with
          | none => rw [h2run] at hr; cases hr
          | some p2 =>
            rw [h2run] at hr
            simp only [Option.map_some'] at hr
            cases hr
            have disj := List.disjoint_of_nodup_append hnd
            obtain ⟨x, hlast_a, hstate1⟩ := Pstep σ _ _ _ _ h1run
              hnd.of_append_left (by
                intro o ho hm
                exact hnotin o ho (List.mem_append_left _ hm))
            have hxmem : x ∈ p1.2 := List.mem_of_getLast?_eq_some hlast_a
            have h2run' : runScriptSM σ (f + 1) p1.1 rest = some p2 := h2run
            have hq := ihl _ _ _ h2run' hnd.of_append_right (by
              intro o' ho'
              have hxx : some x = some o' := hstate1.symm.trans ho'
              cases hxx
              exact fun hm => disj hxmem hm)
            rcases hq with ⟨htrb, hst2⟩ | ⟨y, hlast_b, hst2⟩
            · refine Or.inr ⟨x, ?_, hst2.trans hstate1⟩
              rw [htrb, List.append_nil]
              exact hlast_a
            · have hne : p2.2 ≠ [] := by
                intro hh
                rw [hh] at hlast_b
                cases hlast_b
              refine Or.inr ⟨y, ?_, hst2⟩
              rw [List.getLast?_append_of_ne_nil _ hne]
              exact hlast_b
    exact ⟨Pstep, Qstep⟩

/-- Quiet-start self-healing: if no `start` callback requests further
transitions, every completed `set_state` ends with exactly the requested
state active, regardless of what the `stop` callbacks requested (the
forced recursive call re-installs the original request). -/
theorem setStateSM_quiet : ∀ (fuel : Nat) (σ : Scripts) (h : HeroSM)
    (req : Nat) (h' : HeroSM) (tr : List Nat),
    (∀ s p, σ.startScript s p = []) →
    setStateSM σ fuel h req = some (h', tr) → h'.state = some req := by
  intro fuel
  induction fuel with
  | zero =>
    intro σ h req h' tr hq hr
    simp [setStateSM] at hr
  | succ f ih =>
    intro σ h req h' tr hq hr
    obtain ⟨hs0, olds0, des0⟩ := h
    cases hs0 with
    | none =>
      simp only [setStateSM] at hr
      rw [hq] at hr
      simp only [runScriptGen, Option.map_some'] at hr
      cases hr
      rfl
    | some o =>
      simp only [setStateSM] at hr
      cases hrs1 : runScriptGen (fun h r => setStateSM σ f h r)
          ⟨some o, olds0, des0⟩ (σ.stopScript o req) with
      | none => rw [hrs1] at hr; cases hr
      | some p1 =>
        rw [hrs1] at hr
        simp only [Option.some_bind] at hr
        by_cases heq : p1.1.state = some o
        · rw [if_pos heq] at hr
          rw [hq] at hr
          simp only [runScriptGen, Option.map_some'] at hr
          cases hr
          rfl
        · rw [if_neg heq] at hr
          cases hrec : setStateSM σ f p1.1 req with
          | none => rw [hrec] at hr; cases hr
          | some p2 =>
            rw [hrec] at hr
            simp only [Option.map_some'] at hr
            cases hr
            exact ih σ p1.1 req p2.1 p2.2 hq hrec

/-- The quiet scripts: no state callback requests any further
transition. -/
def scriptsQuiet : Scripts :=
  { stopScript := fun _ _ => [], startScript := fun _ _ => [] }

/-- An initial lifecycle configuration: state `0` active, empty
retirement queue, nothing deleted yet. -/
def heroSMInit : HeroSM :=
  { state := some 0, old_states := [], destroyed := [] }

/-- C1: every completed sequence of `Hero::set_state` calls of one tick
(re-entrant calls from `stop`/`start` callbacks included) leaves the hero
with a non-null active state; the transition never deletes a state
object; every previously active state is appended to the retirement
queue; the trace of requests starts with the outer request; when the
trace repeats no state and avoids the initially active one, the final
active state is exactly the last one requested (with quiet `start`
callbacks the outer request itself wins even against re-entrant `stop`
requests); and the end-of-tick flush of `Hero::update_state` empties the
retirement queue, deleting each queued state exactly once. -/
theorem hero_state_lifecycle (σ : Scripts) (fuel : Nat) (h : HeroSM)
    (req : Nat) (h' : HeroSM) (tr : List Nat)
    (hr : setStateSM σ fuel h req = some (h', tr)) :
    h'.state.isSome = true ∧
    h'.destroyed = h.destroyed ∧
    (∃ t, h'.old_states = h.old_states ++ t) ∧
    tr.head? = some req ∧
    (∀ o, h.state = some o → h'.state ≠ some o → some o ∈ h'.old_states) ∧
    (tr.Nodup → (∀ o, h.state = some o → o ∉ tr) →
      ∃ x, tr.getLast? = some x ∧ h'.state = some x) ∧
    ((∀ s p, σ.startScript s p = []) → h'.state = some req) ∧
    (updateStateFlush h').old_states = [] ∧
    (∀ s, ((updateStateFlush h').destroyed.count s =
      h'.destroyed.count s + h'.old_states.count s)) := by
  obtain ⟨h1, h2, h3, h4, h5⟩ := (setStateSM_basic fuel).1 σ h req h' tr hr
  refine ⟨h1, h2, h3, h4, h5, ?_, ?_, rfl, ?_⟩
  · intro hnd hnotin
    exact (setStateSM_last fuel).1 σ h req h' tr hr hnd hnotin
  · intro hq
    exact setStateSM_quiet fuel σ h req h' tr hq hr
  · intro s
    simp [updateStateFlush, List.count_append]

/-- Witness for the state-lifecycle invariant: the quiet scripts at fuel
`3` replace state `0` by state `1`, retiring state `0`. -/
theorem hero_state_lifecycle_witness :
    setStateSM scriptsQuiet 3 heroSMInit 1 =
      some (⟨some 1, [some 0], []⟩, [1]) ∧
    ((⟨some 1, [some 0], []⟩ : HeroSM).state.isSome = true ∧
      (⟨some 1, [some 0], []⟩ : HeroSM).destroyed = heroSMInit.destroyed ∧
      (∃ t, (⟨some 1, [some 0], []⟩ : HeroSM).old_states =
        heroSMInit.old_states ++ t) ∧
      ([1] : List Nat).head? = some 1 ∧
      (∀ o, heroSMInit.state = some o →
        (⟨some 1, [some 0], []⟩ : HeroSM).state ≠ some o →
        some o ∈ (⟨some 1, [some 0], []⟩ : HeroSM).old_states) ∧
      (([1] : List Nat).Nodup →
        (∀ o, heroSMInit.state = some o → o ∉ ([1] : List Nat)) →
        ∃ x, ([1] : List Nat).getLast? = some x ∧
          (⟨some 1, [some 0], []⟩ : HeroSM).state = some x) ∧
      ((∀ s p, scriptsQuiet.startScript s p = []) →
        (⟨some 1, [some 0], []⟩ : HeroSM).state = some 1) ∧
      (updateStateFlush ⟨some 1, [some 0], []⟩).old_states = [] ∧
      (∀ s, ((updateStateFlush ⟨some 1, [some 0], []⟩).destroyed.count s =
        (⟨some 1, [some 0], []⟩ : HeroSM).destroyed.count s +
        (⟨some 1, [some 0], []⟩ : HeroSM).old_states.count s))) :=
  ⟨by decide,
    hero_state_lifecycle scriptsQuiet 3 heroSMInit 1 ⟨some 1, [some 0], []⟩
      [1] (by decide)⟩

end Solarus
